import Mathlib

/-!
# Verification of the confidential-transfer core (`src/xfr/lib.rs`)

Shallow embedding of the transfer-note construction / verification engine.
The record data model (`structs.rs`) and the cryptographic collaborator
interfaces (`proofs.rs`, `asset_mixer.rs`, `sig.rs`) are not part of the
sources; those are modelled from the spec (§3, §6) and marked as such in
their doc comments.  Everything in `xfr/lib.rs` and `utils/src/lib.rs`
is translated directly from the source.
-/

deriving instance DecidableEq for Except

namespace Zei

/-- Modelled from the spec (§3): `AssetType` is an opaque 16-byte identifier;
the transfer core only compares asset types for equality and folds them into a
scalar, so it is modelled as a list of byte values. -/
abbrev AssetType := List Nat

/-- Modelled from the spec (§6): a Pedersen commitment is modelled as the
formal pair (committed value, blinding factor); `commit` is then injective and
homomorphic, which is what the completeness properties of the spec use.
Compression is the identity on this model. -/
abbrev Commitment := Nat × Nat

/-- Modelled from the spec (§6): `commit(value_scalar, blind_scalar)`. -/
def commit (v r : Nat) : Commitment := (v, r)

/-- Modelled from the spec (§6): decompression of a commitment (identity in
this model; the source's unchecked unwrap on decompression never fires). -/
def decompress (c : Commitment) : Commitment := c

/-- Modelled from the spec (§6): compression of a group element. -/
def compress (c : Commitment) : Commitment := c

/-- Modelled from the spec (§6): group addition of Pedersen commitments. -/
def gadd (c1 c2 : Commitment) : Commitment := (c1.1 + c2.1, c1.2 + c2.2)

/-- Modelled from the spec (§6): scalar multiplication of a commitment. -/
def gsmul (k : Nat) (c : Commitment) : Commitment := (k * c.1, k * c.2)

/-- Opaque public key (only compared for equality by the core). -/
abbrev XfrPublicKey := Nat

/-- `const POW_2_32: u64 = 0xFFFF_FFFFu64 + 1;` from `xfr/lib.rs`. -/
def POW_2_32 : Nat := 0xFFFFFFFF + 1

/-- `u64_to_u32_pair` from `utils/src/lib.rs`:
`((x & 0xFFFF_FFFF) as u32, (x >> 32) as u32)`; the `as u32` casts are
truncation modulo `2^32`. -/
def u64_to_u32_pair (x : Nat) : Nat × Nat :=
  ((x &&& 0xFFFFFFFF) % 2 ^ 32, (x >>> 32) % 2 ^ 32)

/-- Modelled from the spec (§3): the asset type interpreted as a 128-bit
scalar; `u8_bigendian_slice_to_u128` folds the 16 bytes big-endian. -/
def asset_type_to_scalar (t : AssetType) : Nat :=
  t.foldl (fun acc b => acc * 256 + b % 256) 0

/-- Modelled from the spec (§3): a BAR amount is either a pair of commitments
to the two 32-bit limbs, or a cleartext `u64`. -/
inductive XfrAmount where
  | Confidential (c_low c_high : Commitment)
  | NonConfidential (amount : Nat)
deriving DecidableEq

/-- `XfrAmount::get_amount` (used through `unwrap` by the plain checks). -/
def XfrAmount.get_amount : XfrAmount → Option Nat
  | .NonConfidential a => some a
  | .Confidential _ _ => none

/-- Modelled from the spec (§3): a BAR asset type is either a commitment or a
cleartext `AssetType`. -/
inductive XfrAssetType where
  | Confidential (c : Commitment)
  | NonConfidential (t : AssetType)
deriving DecidableEq

/-- `XfrAssetType::get_asset_type`. -/
def XfrAssetType.get_asset_type : XfrAssetType → Option AssetType
  | .NonConfidential t => some t
  | .Confidential _ => none

/-- Modelled from the spec (§3): the on-wire blind asset record. -/
structure BlindAssetRecord where
  public_key : XfrPublicKey
  amount : XfrAmount
  asset_type : XfrAssetType
deriving DecidableEq

/-- Modelled from the spec (§3): the sender's open view of a BAR. -/
structure OpenAssetRecord where
  blind_asset_record : BlindAssetRecord
  amount : Nat
  asset_type : AssetType
  amount_blinds : Nat × Nat
  type_blind : Nat
deriving DecidableEq

/-- Modelled from the spec (§3): the tracer encryption key (opaque, compared
for equality by `find_tracing_memos`). -/
abbrev AssetTracerEncKeys := Nat

/-- Modelled from the spec (§3): per-tracer memo; the ciphertext payloads are
opaque to this development, only their presence and the `enc_key` are used. -/
structure AssetTracerMemo where
  enc_key : AssetTracerEncKeys
  lock_amount : Option Nat
  lock_asset_type : Option Nat
  lock_attributes : Option (List Nat)
deriving DecidableEq

/-- Modelled from the spec (§3): an OAR plus its tracer memos, identity
proofs and optional owner memo. -/
structure AssetRecord where
  open_asset_record : OpenAssetRecord
  asset_tracers_memos : List AssetTracerMemo
  identity_proofs : List (Option Nat)
  owner_memo : Option Nat
deriving DecidableEq

/-- The error taxonomy of `errors.rs`, as listed in the spec (§7). -/
inductive ZeiError where
  | ParameterError
  | XfrCreationAssetAmountError
  | XfrVerifyAssetAmountError
  | XfrVerifyConfidentialAmountError
  | XfrVerifyConfidentialAssetError
  | XfrVerifyAssetMixError
  | XfrVerifyMultisigError
  | XfrVerifyTrackingError
  | InconsistentStructureError
  | AssetTracingExtractionError
  | IdentityTracingExtractionError
deriving DecidableEq

/-- The six confidentiality regimes (`XfrType` in `xfr/lib.rs`). -/
inductive XfrType where
  | NonConfidential_SingleAsset
  | ConfidentialAmount_NonConfidentialAssetType_SingleAsset
  | NonConfidentialAmount_ConfidentialAssetType_SingleAsset
  | Confidential_SingleAsset
  | Confidential_MultiAsset
  | NonConfidential_MultiAsset
deriving DecidableEq

/-- Whether the record's BAR amount is confidential (the first `match` in the
classifier loop). -/
def AssetRecord.conf_amount (r : AssetRecord) : Bool :=
  match r.open_asset_record.blind_asset_record.amount with
  | .Confidential _ _ => true
  | .NonConfidential _ => false

/-- Whether the record's BAR asset type is confidential (the second `match`
in the classifier loop). -/
def AssetRecord.conf_asset_type (r : AssetRecord) : Bool :=
  match r.open_asset_record.blind_asset_record.asset_type with
  | .Confidential _ => true
  | .NonConfidential _ => false

/-- The four mutable flags accumulated by `XfrType::from_inputs_outputs`. -/
structure ClassifyFlags where
  multi_asset : Bool
  confidential_amount_nonconfidential_asset_type : Bool
  confidential_asset_type_nonconfidential_amount : Bool
  confidential_all : Bool
deriving DecidableEq

/-- One iteration of the classifier loop of `XfrType::from_inputs_outputs`
(`asset_type` is `inputs_record[0]`'s asset type). -/
def classify_step (t0 : AssetType) (f : ClassifyFlags) (r : AssetRecord) : ClassifyFlags :=
  let f := if t0 ≠ r.open_asset_record.asset_type then { f with multi_asset := true } else f
  if r.conf_amount && r.conf_asset_type then
    { f with confidential_all := true }
  else if r.conf_amount then
    { f with confidential_amount_nonconfidential_asset_type := true }
  else if r.conf_asset_type then
    { f with confidential_asset_type_nonconfidential_amount := true }
  else f

/-- The final `if` cascade of `XfrType::from_inputs_outputs`. -/
def XfrType.of_flags (f : ClassifyFlags) : XfrType :=
  if f.multi_asset then
    if f.confidential_all
       || f.confidential_amount_nonconfidential_asset_type
       || f.confidential_asset_type_nonconfidential_amount then
      .Confidential_MultiAsset
    else
      .NonConfidential_MultiAsset
  else if f.confidential_all
          || (f.confidential_amount_nonconfidential_asset_type
              && f.confidential_asset_type_nonconfidential_amount) then
    .Confidential_SingleAsset
  else if f.confidential_amount_nonconfidential_asset_type then
    .ConfidentialAmount_NonConfidentialAssetType_SingleAsset
  else if f.confidential_asset_type_nonconfidential_amount then
    .NonConfidentialAmount_ConfidentialAssetType_SingleAsset
  else
    .NonConfidential_SingleAsset

/-- `XfrType::from_inputs_outputs`.  The source reads
`inputs_record[0].open_asset_record.asset_type`, which panics on an empty
input slice; the panic is modelled as `none`. -/
def XfrType.from_inputs_outputs (inputs_record outputs_record : List AssetRecord) :
    Option XfrType :=
  match inputs_record with
  | [] => none
  | r0 :: _ =>
    let t0 := r0.open_asset_record.asset_type
    some (XfrType.of_flags
      ((inputs_record ++ outputs_record).foldl (classify_step t0)
        ⟨false, false, false, false⟩))

/-- Modelled from the spec (§6): a range proof is modelled symbolically as
binding to the records it was generated for; the batched verifier accepts
exactly the bound records, capturing completeness of the honest path. -/
structure RangeProof where
  ins : List BlindAssetRecord
  outs : List BlindAssetRecord
deriving DecidableEq

/-- Modelled from the spec (§6): asset-equality proof, modelled symbolically
like `RangeProof`. -/
structure AssetEqualityProof where
  ins : List BlindAssetRecord
  outs : List BlindAssetRecord
deriving DecidableEq

/-- Modelled from the spec (§6): asset-mixing proof over the tuples
`(amount, type_scalar, combined_amount_blind, type_blind)` it was generated
for (§4.2). -/
structure AssetMixProof where
  ins : List (Nat × Nat × Nat × Nat)
  outs : List (Nat × Nat × Nat × Nat)
deriving DecidableEq

/-- The five shapes of `AssetTypeAndAmountProof` (§4.2). -/
inductive AssetTypeAndAmountProof where
  | NoProof
  | ConfAmount (rp : RangeProof)
  | ConfAsset (ap : AssetEqualityProof)
  | ConfAll (rp : RangeProof) (ap : AssetEqualityProof)
  | AssetMix (mp : AssetMixProof)
deriving DecidableEq

/-- Modelled from the spec (§6): `range_proof(inputs, outputs)`; honest
generation binds the proof to the BARs of the open records. -/
def range_proof (inputs outputs : List OpenAssetRecord) : Except ZeiError RangeProof :=
  .ok ⟨inputs.map (·.blind_asset_record), outputs.map (·.blind_asset_record)⟩

/-- Modelled from the spec (§6): `asset_proof(rng, gens, inputs, outputs)`;
the proof object does not depend on the randomness in this model. -/
def asset_proof (inputs outputs : List OpenAssetRecord) : Except ZeiError AssetEqualityProof :=
  .ok ⟨inputs.map (·.blind_asset_record), outputs.map (·.blind_asset_record)⟩

/-- Modelled from the spec (§6): `prove_asset_mixing` over the input and
output tuples. -/
def prove_asset_mixing (ins outs : List (Nat × Nat × Nat × Nat)) :
    Except ZeiError AssetMixProof :=
  .ok ⟨ins, outs⟩

/-- The tuple `(amount, type_scalar, combined_amount_blind, type_blind)`
built from an open record by `gen_xfr_proofs_multi_asset` (§4.2): the
combined blind is `r_low + 2^32 · r_high`. -/
def mix_tuple (x : OpenAssetRecord) : Nat × Nat × Nat × Nat :=
  (x.amount, asset_type_to_scalar x.asset_type,
   x.amount_blinds.1 + POW_2_32 * x.amount_blinds.2, x.type_blind)

/-- `gen_xfr_proofs_multi_asset` from `xfr/lib.rs`: reduces each open record
to its mixing tuple, then dispatches on the classification. -/
def gen_xfr_proofs_multi_asset (inputs outputs : List OpenAssetRecord)
    (xfr_type : XfrType) : Except ZeiError AssetTypeAndAmountProof :=
  let ins := inputs.map mix_tuple
  let out := outputs.map mix_tuple
  match xfr_type with
  | .Confidential_MultiAsset => do
    let mix_proof ← prove_asset_mixing ins out
    .ok (.AssetMix mix_proof)
  | .NonConfidential_MultiAsset => .ok .NoProof
  | _ => .error .XfrCreationAssetAmountError

/-- `gen_xfr_proofs_single_asset` from `xfr/lib.rs`. -/
def gen_xfr_proofs_single_asset (inputs outputs : List OpenAssetRecord)
    (xfr_type : XfrType) : Except ZeiError AssetTypeAndAmountProof :=
  match xfr_type with
  | .NonConfidential_SingleAsset => .ok .NoProof
  | .ConfidentialAmount_NonConfidentialAssetType_SingleAsset => do
    let rp ← range_proof inputs outputs
    .ok (.ConfAmount rp)
  | .NonConfidentialAmount_ConfidentialAssetType_SingleAsset => do
    let ap ← asset_proof inputs outputs
    .ok (.ConfAsset ap)
  | .Confidential_SingleAsset => do
    let rp ← range_proof inputs outputs
    let ap ← asset_proof inputs outputs
    .ok (.ConfAll rp ap)
  | _ => .error .XfrCreationAssetAmountError

/-- One `HashMap` update of `check_asset_amount`: push `v` onto the group of
asset type `t`, creating the group if absent (an association list stands in
for the hash map; only the per-group contents matter downstream). -/
def push_amount (m : List (AssetType × List Int)) (t : AssetType) (v : Int) :
    List (AssetType × List Int) :=
  match m with
  | [] => [(t, [v])]
  | (t', vs) :: rest =>
    if t = t' then (t', vs ++ [v]) :: rest else (t', vs) :: push_amount rest t v

/-- Grouping of signed entries by asset type, as built by the two loops of
`check_asset_amount` / `verify_plain_asset_mix` (inputs positive, outputs
negative, in order). -/
def signed_groups (entries : List (AssetType × Int)) : List (AssetType × List Int) :=
  entries.foldl (fun m e => push_amount m e.1 e.2) []

/-- The signed entry list scanned by `check_asset_amount`: input amounts
positive, output amounts negative.  `i128::from(u64)` is exact; a 128-bit
signed accumulator cannot overflow on any addressable vector of such terms,
so the sums are modelled exactly. -/
def creation_entries (inputs outputs : List AssetRecord) : List (AssetType × Int) :=
  inputs.map (fun r => (r.open_asset_record.asset_type, (r.open_asset_record.amount : Int)))
    ++ outputs.map (fun r => (r.open_asset_record.asset_type, -(r.open_asset_record.amount : Int)))

/-- `check_asset_amount` from `xfr/lib.rs`: every group's signed sum must be
non-negative, otherwise `XfrCreationAssetAmountError`. -/
def check_asset_amount (inputs outputs : List AssetRecord) : Except ZeiError Unit :=
  if (signed_groups (creation_entries inputs outputs)).all
      (fun g => decide (0 ≤ g.2.sum)) then
    .ok ()
  else
    .error .XfrCreationAssetAmountError

/-- Modelled from the spec (§3, §6): an input key pair; only the public half
is inspected by the core (`get_pk_ref`). -/
structure XfrKeyPair where
  pub_key : XfrPublicKey
deriving DecidableEq

/-- `check_keys` from `xfr/lib.rs`: the key list must align with the inputs
and each input's BAR public key must equal the paired key's public key. -/
def check_keys (inputs : List AssetRecord) (input_key_pairs : List XfrKeyPair) :
    Except ZeiError Unit :=
  if inputs.length ≠ input_key_pairs.length then
    .error .ParameterError
  else if (inputs.zip input_key_pairs).all
      (fun p => p.1.open_asset_record.blind_asset_record.public_key == p.2.pub_key) then
    .ok ()
  else
    .error .ParameterError

/-- Modelled from the spec (§4.3): the tracer amount/type proofs produced by
`asset_amount_tracking_proofs`, one opaque proof per tracer memo; records
without tracing policies contribute nothing. -/
def asset_amount_tracking_proofs (inputs outputs : List AssetRecord) :
    Except ZeiError (List Nat) :=
  .ok (((inputs ++ outputs).map (·.asset_tracers_memos)).flatMap (·.map (fun _ => 0)))

/-- The tracing / identity proof bundle of `XfrProofs` (§3). -/
structure AssetTrackingProofs where
  asset_type_and_amount_proofs : List Nat
  inputs_identity_proofs : List (List (Option Nat))
  outputs_identity_proofs : List (List (Option Nat))
deriving DecidableEq

/-- `XfrProofs` (§3). -/
structure XfrProofs where
  asset_type_and_amount_proof : AssetTypeAndAmountProof
  asset_tracking_proof : AssetTrackingProofs
deriving DecidableEq

/-- `XfrBody` (§3). -/
structure XfrBody where
  inputs : List BlindAssetRecord
  outputs : List BlindAssetRecord
  proofs : XfrProofs
  asset_tracing_memos : List (List AssetTracerMemo)
  owners_memos : List (Option Nat)
deriving DecidableEq

/-- Modelled from the spec (§6): a multisignature binds the signing keys'
public halves to the canonical encoding of the signed body (the encoding is
deterministic and injective, so it is modelled by the body itself). -/
structure XfrMultiSig where
  pub_keys : List XfrPublicKey
  message : XfrBody
deriving DecidableEq

/-- `XfrNote` (§3). -/
structure XfrNote where
  body : XfrBody
  multisig : XfrMultiSig
deriving DecidableEq

/-- Modelled from the spec (§6): `sign_multisig(keys, bytes)`. -/
def sign_multisig (keys : List XfrKeyPair) (message : XfrBody) : XfrMultiSig :=
  ⟨keys.map (·.pub_key), message⟩

/-- Modelled from the spec (§6): `verify_multisig(pub_keys, bytes, sig)`
succeeds exactly on the keys and message the signature was produced for. -/
def verify_multisig (pub_keys : List XfrPublicKey) (message : XfrBody)
    (sig : XfrMultiSig) : Except ZeiError Unit :=
  if sig.pub_keys = pub_keys ∧ sig.message = message then .ok ()
  else .error .XfrVerifyMultisigError

/-- `compute_transfer_multisig` from `xfr/lib.rs`: serialize the body
canonically and multisign it (serialization is modelled as the identity and
cannot fail in this model). -/
def compute_transfer_multisig (body : XfrBody) (keys : List XfrKeyPair) : XfrMultiSig :=
  sign_multisig keys body

/-- `verify_transfer_multisig` from `xfr/lib.rs`: the signature is checked
against the public keys read off the body's inputs, in order. -/
def verify_transfer_multisig (xfr_note : XfrNote) : Except ZeiError Unit :=
  verify_multisig (xfr_note.body.inputs.map (·.public_key)) xfr_note.body xfr_note.multisig

/-- `gen_xfr_body` from `xfr/lib.rs`: empty-input guard, classification,
balance check, proof dispatch, tracking proofs, body assembly. -/
def gen_xfr_body (inputs outputs : List AssetRecord) : Except ZeiError XfrBody :=
  match inputs with
  | [] => .error .ParameterError
  | r0 :: rest => do
    let inputs := r0 :: rest
    let t0 := r0.open_asset_record.asset_type
    let xfr_type := XfrType.of_flags
      ((inputs ++ outputs).foldl (classify_step t0) ⟨false, false, false, false⟩)
    check_asset_amount inputs outputs
    let single_asset : Bool :=
      match xfr_type with
      | .NonConfidential_MultiAsset | .Confidential_MultiAsset => false
      | _ => true
    let open_inputs := inputs.map (·.open_asset_record)
    let open_outputs := outputs.map (·.open_asset_record)
    let asset_amount_proof ←
      if single_asset then
        gen_xfr_proofs_single_asset open_inputs open_outputs xfr_type
      else
        gen_xfr_proofs_multi_asset open_inputs open_outputs xfr_type
    let tracking ← asset_amount_tracking_proofs inputs outputs
    let asset_tracking_proof : AssetTrackingProofs :=
      ⟨tracking, inputs.map (·.identity_proofs), outputs.map (·.identity_proofs)⟩
    .ok { inputs := open_inputs.map (·.blind_asset_record)
          outputs := open_outputs.map (·.blind_asset_record)
          proofs := ⟨asset_amount_proof, asset_tracking_proof⟩
          asset_tracing_memos := (inputs ++ outputs).map (·.asset_tracers_memos)
          owners_memos := outputs.map (·.owner_memo) }

/-- `gen_xfr_note` from `xfr/lib.rs`: empty-input guard, key check, body
generation, multisignature. -/
def gen_xfr_note (inputs outputs : List AssetRecord)
    (input_key_pairs : List XfrKeyPair) : Except ZeiError XfrNote :=
  if inputs.isEmpty then .error .ParameterError
  else do
    check_keys inputs input_key_pairs
    let body ← gen_xfr_body inputs outputs
    let multisig := compute_transfer_multisig body input_key_pairs
    .ok ⟨body, multisig⟩

/-- `safe_sum_u64` from `xfr/lib.rs`: each `u64` term is promoted to `u128`
before summing; the `u128` accumulator itself wraps modulo `2^128`. -/
def safe_sum_u64 (terms : List Nat) : Nat :=
  terms.foldl (fun acc x => (acc + x) % 2 ^ 128) 0

/-- `verify_plain_amounts` from `xfr/lib.rs`: unwraps every amount (a
confidential amount panics, modelled as `none`) and compares the promoted
sums. -/
def verify_plain_amounts (inputs outputs : List BlindAssetRecord) :
    Option (Except ZeiError Unit) := do
  let in_amount ← inputs.mapM (·.amount.get_amount)
  let out_amount ← outputs.mapM (·.amount.get_amount)
  let sum_inputs := safe_sum_u64 in_amount
  let sum_outputs := safe_sum_u64 out_amount
  if sum_inputs < sum_outputs then
    some (.error .XfrVerifyAssetAmountError)
  else
    some (.ok ())

/-- `Itertools::all_equal`: every element equals the first (vacuously true
on fewer than two elements). -/
def all_equal_bool (l : List AssetType) : Bool :=
  match l with
  | [] => true
  | t :: rest => rest.all (fun u => decide (u = t))

/-- `verify_plain_asset` from `xfr/lib.rs`: unwraps every asset type and
requires them all equal. -/
def verify_plain_asset (inputs outputs : List BlindAssetRecord) :
    Option (Except ZeiError Unit) := do
  let list ← (inputs ++ outputs).mapM (·.asset_type.get_asset_type)
  if all_equal_bool list then some (.ok ())
  else some (.error .XfrVerifyAssetAmountError)

/-- The revealed `(asset_type, +amount)` entry of an input BAR (both
unwraps of `verify_plain_asset_mix`; a confidential field is a panic,
modelled as `none`). -/
def bar_pos_entry (b : BlindAssetRecord) : Option (AssetType × Int) := do
  let t ← b.asset_type.get_asset_type
  let a ← b.amount.get_amount
  pure (t, (a : Int))

/-- The revealed `(asset_type, -amount)` entry of an output BAR. -/
def bar_neg_entry (b : BlindAssetRecord) : Option (AssetType × Int) := do
  let t ← b.asset_type.get_asset_type
  let a ← b.amount.get_amount
  pure (t, -(a : Int))

/-- `verify_plain_asset_mix` from `xfr/lib.rs`: the same grouped signed-sum
test as `check_asset_amount`, on the revealed BAR amounts and types. -/
def verify_plain_asset_mix (inputs outputs : List BlindAssetRecord) :
    Option (Except ZeiError Unit) := do
  let ins ← inputs.mapM bar_pos_entry
  let outs ← outputs.mapM bar_neg_entry
  if (signed_groups (ins ++ outs)).all (fun g => decide (0 ≤ g.2.sum)) then
    some (.ok ())
  else
    some (.error .XfrVerifyAssetAmountError)

/-- The commitment pair `(com_amount, com_type)` computed for one BAR by
`process_bars` inside `batch_verify_asset_mix`. -/
def process_bar (x : BlindAssetRecord) : Commitment × Commitment :=
  let lowhigh :=
    match x.amount with
    | .Confidential c1 c2 => (decompress c1, decompress c2)
    | .NonConfidential amount =>
      let lh := u64_to_u32_pair amount
      (commit lh.1 0, commit lh.2 0)
  let com_amount := compress (gadd lowhigh.1 (gsmul POW_2_32 lowhigh.2))
  let com_type :=
    match x.asset_type with
    | .Confidential c => c
    | .NonConfidential asset_type =>
      compress (commit (asset_type_to_scalar asset_type) 0)
  (com_amount, com_type)

/-- `process_bars` from `batch_verify_asset_mix`. -/
def process_bars (bars : List BlindAssetRecord) : List (Commitment × Commitment) :=
  bars.map process_bar

/-- An `AssetMixingInstance` (§6). -/
structure AssetMixingInstance where
  inputs : List (Commitment × Commitment)
  outputs : List (Commitment × Commitment)
  proof : AssetMixProof
deriving DecidableEq

/-- The commitment pair a mixing tuple opens (value components paired with
blind components). -/
def tuple_to_coms (t : Nat × Nat × Nat × Nat) : Commitment × Commitment :=
  ((t.1, t.2.2.1), (t.2.1, t.2.2.2))

/-- Modelled from the spec (§6): the batched asset-mixing verifier; an
instance is accepted exactly when its commitments open to the tuples bound
by its proof, capturing completeness of the honest path. -/
def batch_verify_asset_mixing (instances : List AssetMixingInstance) :
    Except ZeiError Unit :=
  if instances.all (fun inst =>
      inst.inputs == inst.proof.ins.map tuple_to_coms
      && inst.outputs == inst.proof.outs.map tuple_to_coms) then
    .ok ()
  else
    .error .XfrVerifyAssetMixError

/-- `batch_verify_asset_mix` from `xfr/lib.rs`: build one
`AssetMixingInstance` per pooled body and hand them to the batched mixing
verifier. -/
def batch_verify_asset_mix
    (bars_instances : List (List BlindAssetRecord × List BlindAssetRecord × AssetMixProof)) :
    Except ZeiError Unit :=
  batch_verify_asset_mixing
    (bars_instances.map (fun i => ⟨process_bars i.1, process_bars i.2.1, i.2.2⟩))

/-- Modelled from the spec (§6): the batched range-proof verifier over the
`conf_amount` pool; each pooled proof is accepted exactly on the records it
was generated for. -/
def batch_verify_confidential_amount
    (pool : List (List BlindAssetRecord × List BlindAssetRecord × RangeProof)) :
    Except ZeiError Unit :=
  if pool.all (fun e => e.2.2.ins == e.1 && e.2.2.outs == e.2.1) then .ok ()
  else .error .XfrVerifyConfidentialAmountError

/-- Modelled from the spec (§6): the batched asset-equality verifier over
the `conf_asset` pool. -/
def batch_verify_confidential_asset
    (pool : List (List BlindAssetRecord × List BlindAssetRecord × AssetEqualityProof)) :
    Except ZeiError Unit :=
  if pool.all (fun e => e.2.2.ins == e.1 && e.2.2.outs == e.2.1) then .ok ()
  else .error .XfrVerifyConfidentialAssetError

/-- The three proof pools accumulated by
`batch_verify_xfr_body_asset_records`. -/
structure ProofPools where
  conf_amount : List (List BlindAssetRecord × List BlindAssetRecord × RangeProof)
  conf_asset : List (List BlindAssetRecord × List BlindAssetRecord × AssetEqualityProof)
  asset_mix : List (List BlindAssetRecord × List BlindAssetRecord × AssetMixProof)

/-- The partitioning loop of `batch_verify_xfr_body_asset_records`: pools
the batched proof parts and runs the immediate plain checks, stopping at the
first failure (a `none` is an `unwrap` panic inside a plain check). -/
def scan_bodies : List XfrBody → ProofPools → Option (Except ZeiError ProofPools)
  | [], pools => some (.ok pools)
  | body :: rest, pools =>
    match body.proofs.asset_type_and_amount_proof with
    | .ConfAll rp ap =>
      scan_bodies rest
        { pools with
          conf_amount := pools.conf_amount ++ [(body.inputs, body.outputs, rp)]
          conf_asset := pools.conf_asset ++ [(body.inputs, body.outputs, ap)] }
    | .ConfAmount rp => do
      let pools := { pools with
        conf_amount := pools.conf_amount ++ [(body.inputs, body.outputs, rp)] }
      match ← verify_plain_asset body.inputs body.outputs with
      | .error e => some (.error e)
      | .ok () => scan_bodies rest pools
    | .ConfAsset ap => do
      match ← verify_plain_amounts body.inputs body.outputs with
      | .error e => some (.error e)
      | .ok () =>
        scan_bodies rest
          { pools with
            conf_asset := pools.conf_asset ++ [(body.inputs, body.outputs, ap)] }
    | .NoProof => do
      match ← verify_plain_asset_mix body.inputs body.outputs with
      | .error e => some (.error e)
      | .ok () => scan_bodies rest pools
    | .AssetMix mp =>
      scan_bodies rest
        { pools with
          asset_mix := pools.asset_mix ++ [(body.inputs, body.outputs, mp)] }

/-- `batch_verify_xfr_body_asset_records` from `xfr/lib.rs`: partition, then
run the three pooled batch verifiers in order. -/
def batch_verify_xfr_body_asset_records (bodies : List XfrBody) :
    Option (Except ZeiError Unit) := do
  match ← scan_bodies bodies ⟨[], [], []⟩ with
  | .error e => some (.error e)
  | .ok pools =>
    some (do
      batch_verify_confidential_amount pools.conf_amount
      batch_verify_confidential_asset pools.conf_asset
      batch_verify_asset_mix pools.asset_mix)

/-- Modelled from the spec (§3): per-record tracing policies (opaque policy
tokens) and credential commitments, aligned with inputs and outputs. -/
structure XfrNotePolicies where
  inputs_tracking_policies : List (List Nat)
  inputs_sig_commitments : List (Option Nat)
  outputs_tracking_policies : List (List Nat)
  outputs_sig_commitments : List (Option Nat)
deriving DecidableEq

/-- `Default::default()` for `XfrNotePolicies`: four empty vectors. -/
def XfrNotePolicies.default : XfrNotePolicies := ⟨[], [], [], []⟩

/-- Modelled from the spec (§4.3): one body's tracing proofs verify against
one policy set precisely when the body's tracing data and the policies
demand nothing of each other; this captures the untraced honest path and is
checked body by body. -/
def tracer_tracking_ok (body : XfrBody) (policy : XfrNotePolicies) : Bool :=
  body.proofs.asset_tracking_proof.asset_type_and_amount_proofs.isEmpty
  && body.asset_tracing_memos.all List.isEmpty
  && policy.inputs_tracking_policies.all List.isEmpty
  && policy.outputs_tracking_policies.all List.isEmpty

/-- Modelled from the spec (§4.2 step 2, §7): batched verification of the
tracing proofs of several bodies against their aligned policies; a length
mismatch is a caller-shape error. -/
def batch_verify_tracer_tracking_proof (bodies : List XfrBody)
    (policies : List XfrNotePolicies) : Except ZeiError Unit :=
  if bodies.length ≠ policies.length then .error .ParameterError
  else if (bodies.zip policies).all (fun p => tracer_tracking_ok p.1 p.2) then .ok ()
  else .error .XfrVerifyTrackingError

/-- `batch_verify_xfr_bodies` from `xfr/lib.rs`: content proofs first, then
tracing proofs. -/
def batch_verify_xfr_bodies (bodies : List XfrBody)
    (policies : List XfrNotePolicies) : Option (Except ZeiError Unit) := do
  match ← batch_verify_xfr_body_asset_records bodies with
  | .error e => some (.error e)
  | .ok () => some (batch_verify_tracer_tracking_proof bodies policies)

/-- `verify_xfr_body` from `xfr/lib.rs`: a batch of one. -/
def verify_xfr_body (body : XfrBody) (policies : XfrNotePolicies) :
    Option (Except ZeiError Unit) :=
  batch_verify_xfr_bodies [body] [policies]

/-- The signature loop of `batch_verify_xfr_notes`. -/
def verify_all_multisigs : List XfrNote → Except ZeiError Unit
  | [] => .ok ()
  | n :: rest => do
    verify_transfer_multisig n
    verify_all_multisigs rest

/-- `batch_verify_xfr_notes` from `xfr/lib.rs`: all multisignatures first,
then the bodies in batch. -/
def batch_verify_xfr_notes (notes : List XfrNote)
    (policies : List XfrNotePolicies) : Option (Except ZeiError Unit) :=
  match verify_all_multisigs notes with
  | .error e => some (.error e)
  | .ok () => batch_verify_xfr_bodies (notes.map (·.body)) policies

/-- `verify_xfr_note` from `xfr/lib.rs`: a batch of one. -/
def verify_xfr_note (xfr_note : XfrNote) (policies : XfrNotePolicies) :
    Option (Except ZeiError Unit) :=
  batch_verify_xfr_notes [xfr_note] [policies]

/-- `find_tracing_memos` from `xfr/lib.rs`: memo-count invariant, then the
nested collection loop over `(inputs ++ outputs)` zipped with the per-record
memo lists. -/
def find_tracing_memos (xfr_body : XfrBody) (pub_key : AssetTracerEncKeys) :
    Except ZeiError (List (BlindAssetRecord × AssetTracerMemo)) :=
  if xfr_body.inputs.length + xfr_body.outputs.length
      ≠ xfr_body.asset_tracing_memos.length then
    .error .InconsistentStructureError
  else
    .ok (((xfr_body.inputs ++ xfr_body.outputs).zip xfr_body.asset_tracing_memos).foldl
      (fun result p =>
        p.2.foldl
          (fun result memo =>
            if memo.enc_key == pub_key then result ++ [(p.1, memo)] else result)
          result)
      [])

/-! ## Specification-side definitions (used only in theorem statements) -/

/-- Spec §4.1: `multi_asset` — some record's asset type differs from
`inputs[0]`'s. -/
def spec_multi_asset (t0 : AssetType) (records : List AssetRecord) : Bool :=
  records.any (fun r => decide (t0 ≠ r.open_asset_record.asset_type))

/-- Spec §4.1: `all_conf` — some record has both a confidential amount and a
confidential asset type. -/
def spec_all_conf (records : List AssetRecord) : Bool :=
  records.any (fun r => r.conf_amount && r.conf_asset_type)

/-- Spec §4.1: `amt_only_conf` — some record has a confidential amount but a
revealed asset type. -/
def spec_amt_only_conf (records : List AssetRecord) : Bool :=
  records.any (fun r => r.conf_amount && !r.conf_asset_type)

/-- Spec §4.1: `type_only_conf` — some record has a confidential asset type
but a revealed amount. -/
def spec_type_only_conf (records : List AssetRecord) : Bool :=
  records.any (fun r => r.conf_asset_type && !r.conf_amount)

/-- The decision table of spec §4.1, row by row. -/
def decision_table (multi all_conf amt_only type_only : Bool) : XfrType :=
  if multi then
    if all_conf || amt_only || type_only then .Confidential_MultiAsset
    else .NonConfidential_MultiAsset
  else if all_conf then .Confidential_SingleAsset
  else if amt_only && type_only then .Confidential_SingleAsset
  else if amt_only then .ConfidentialAmount_NonConfidentialAssetType_SingleAsset
  else if type_only then .NonConfidentialAmount_ConfidentialAssetType_SingleAsset
  else .NonConfidential_SingleAsset

/-- The total cleartext amount of the records of asset type `t`. -/
def amount_sum (t : AssetType) (records : List AssetRecord) : Nat :=
  ((records.filter (fun r => decide (r.open_asset_record.asset_type = t))).map
    (fun r => r.open_asset_record.amount)).sum

/-- The signed total of the entries carrying asset type `t`. -/
def entries_sum (t : AssetType) (entries : List (AssetType × Int)) : Int :=
  ((entries.filter (fun e => decide (e.1 = t))).map (·.2)).sum

/-- The summed groups of an association list, restricted to key `t`. -/
def glookup_sum (m : List (AssetType × List Int)) (t : AssetType) : Int :=
  ((m.filter (fun g => decide (g.1 = t))).map (fun g => g.2.sum)).sum

/-- The revealed amounts of a BAR list, in order. -/
def plain_amounts (l : List BlindAssetRecord) : List Nat :=
  l.filterMap (·.amount.get_amount)

/-- The BAR's amount is revealed and fits in a `u64`. -/
def plain_u64 (b : BlindAssetRecord) : Bool :=
  match b.amount with
  | .NonConfidential a => decide (a < 2 ^ 64)
  | .Confidential _ _ => false

/-- Spec §3 invariants of an open record: the cleartext amount is a `u64`,
and each field of the BAR opens to the cleartext data with the declared
blinds (zero blinds for revealed fields). -/
def honest_oar (oar : OpenAssetRecord) : Bool :=
  decide (oar.amount < 2 ^ 64) &&
  (match oar.blind_asset_record.amount with
   | .NonConfidential a =>
     decide (a = oar.amount) && decide (oar.amount_blinds = (0, 0))
   | .Confidential c1 c2 =>
     decide (c1 = commit (u64_to_u32_pair oar.amount).1 oar.amount_blinds.1) &&
     decide (c2 = commit (u64_to_u32_pair oar.amount).2 oar.amount_blinds.2)) &&
  (match oar.blind_asset_record.asset_type with
   | .NonConfidential t => decide (t = oar.asset_type) && decide (oar.type_blind = 0)
   | .Confidential c =>
     decide (c = compress (commit (asset_type_to_scalar oar.asset_type) oar.type_blind)))

/-- An honest untraced record: a well-formed open record carrying no tracer
memos and no identity proofs. -/
def honest_record (r : AssetRecord) : Bool :=
  honest_oar r.open_asset_record
  && r.asset_tracers_memos.isEmpty && r.identity_proofs.isEmpty

/-- The immediate (non-pooled) check `batch_verify_xfr_body_asset_records`
runs for one body. -/
def body_plain_check (body : XfrBody) : Option (Except ZeiError Unit) :=
  match body.proofs.asset_type_and_amount_proof with
  | .ConfAll _ _ => some (.ok ())
  | .ConfAmount _ => verify_plain_asset body.inputs body.outputs
  | .ConfAsset _ => verify_plain_amounts body.inputs body.outputs
  | .NoProof => verify_plain_asset_mix body.inputs body.outputs
  | .AssetMix _ => some (.ok ())

/-- The entries one body contributes to the `conf_amount` pool. -/
def camt_entries (body : XfrBody) :
    List (List BlindAssetRecord × List BlindAssetRecord × RangeProof) :=
  match body.proofs.asset_type_and_amount_proof with
  | .ConfAll rp _ => [(body.inputs, body.outputs, rp)]
  | .ConfAmount rp => [(body.inputs, body.outputs, rp)]
  | _ => []

/-- The entries one body contributes to the `conf_asset` pool. -/
def casset_entries (body : XfrBody) :
    List (List BlindAssetRecord × List BlindAssetRecord × AssetEqualityProof) :=
  match body.proofs.asset_type_and_amount_proof with
  | .ConfAll _ ap => [(body.inputs, body.outputs, ap)]
  | .ConfAsset ap => [(body.inputs, body.outputs, ap)]
  | _ => []

/-- The entries one body contributes to the `asset_mix` pool. -/
def mix_entries (body : XfrBody) :
    List (List BlindAssetRecord × List BlindAssetRecord × AssetMixProof) :=
  match body.proofs.asset_type_and_amount_proof with
  | .AssetMix mp => [(body.inputs, body.outputs, mp)]
  | _ => []

/-- Whether every pool entry contributed by this body passes its pooled
batch verifier. -/
def body_pool_ok (body : XfrBody) : Bool :=
  (camt_entries body).all (fun e => e.2.2.ins == e.1 && e.2.2.outs == e.2.1)
  && (casset_entries body).all (fun e => e.2.2.ins == e.1 && e.2.2.outs == e.2.1)
  && (mix_entries body).all (fun e =>
      process_bars e.1 == e.2.2.ins.map tuple_to_coms
      && process_bars e.2.1 == e.2.2.outs.map tuple_to_coms)

/-! ## Concrete sample data (for witnesses) -/

/-- A 16-byte asset type `A = [0u8;16]`. -/
def typeA : AssetType := List.replicate 16 0

/-- A second 16-byte asset type. -/
def typeB : AssetType := 1 :: List.replicate 15 0

/-- A fully revealed honest open record. -/
def plainOAR (amount : Nat) (t : AssetType) (pk : XfrPublicKey) : OpenAssetRecord :=
  { blind_asset_record := ⟨pk, .NonConfidential amount, .NonConfidential t⟩
    amount := amount, asset_type := t, amount_blinds := (0, 0), type_blind := 0 }

/-- A fully confidential honest open record with the given blinds. -/
def confOAR (amount : Nat) (t : AssetType) (pk : XfrPublicKey) (rl rh tb : Nat) :
    OpenAssetRecord :=
  { blind_asset_record := ⟨pk,
      .Confidential (commit (u64_to_u32_pair amount).1 rl)
        (commit (u64_to_u32_pair amount).2 rh),
      .Confidential (compress (commit (asset_type_to_scalar t) tb))⟩
    amount := amount, asset_type := t, amount_blinds := (rl, rh), type_blind := tb }

/-- An untraced asset record around an open record. -/
def mkRecord (o : OpenAssetRecord) : AssetRecord := ⟨o, [], [], none⟩

/-- A simple well-formed plain body (one input of 10 `A`, one output of
10 `A`, no proofs, no memos). -/
def samplePlainBody : XfrBody :=
  { inputs := [(plainOAR 10 typeA 1).blind_asset_record]
    outputs := [(plainOAR 10 typeA 2).blind_asset_record]
    proofs := ⟨.NoProof, ⟨[], [], []⟩⟩
    asset_tracing_memos := [[], []]
    owners_memos := [none] }

/-- A plain BAR holding `amount` units of asset `A`. -/
def sampleBar (amount : Nat) : BlindAssetRecord :=
  (plainOAR amount typeA 0).blind_asset_record

/-- A tracer memo addressed to tracer key 42. -/
def memo42 : AssetTracerMemo := ⟨42, some 1, none, none⟩

/-- A tracer memo addressed to tracer key 7. -/
def memo7 : AssetTracerMemo := ⟨7, none, none, none⟩

/-- A body carrying tracing memos on its input and output. -/
def sampleMemoBody : XfrBody :=
  { samplePlainBody with asset_tracing_memos := [[memo42, memo7], [memo7, memo42]] }

/-- The body `gen_xfr_body` assembles around a given content proof. -/
def gen_body_expected (inputs outputs : List AssetRecord)
    (P : AssetTypeAndAmountProof) : XfrBody :=
  { inputs := inputs.map (fun r => r.open_asset_record.blind_asset_record)
    outputs := outputs.map (fun r => r.open_asset_record.blind_asset_record)
    proofs := ⟨P,
      ⟨((inputs ++ outputs).map (·.asset_tracers_memos)).flatMap (·.map (fun _ => 0)),
       inputs.map (·.identity_proofs), outputs.map (·.identity_proofs)⟩⟩
    asset_tracing_memos := (inputs ++ outputs).map (·.asset_tracers_memos)
    owners_memos := outputs.map (·.owner_memo) }

/-! ## Classifier lemmas -/

theorem classify_step_multi (t0 : AssetType) (f : ClassifyFlags) (r : AssetRecord) :
    (classify_step t0 f r).multi_asset
      = (f.multi_asset || decide (t0 ≠ r.open_asset_record.asset_type)) := by
  unfold classify_step
  by_cases h : t0 ≠ r.open_asset_record.asset_type <;>
    cases hca : r.conf_amount <;> cases hct : r.conf_asset_type <;>
      simp [h, hca, hct]

theorem classify_step_camt (t0 : AssetType) (f : ClassifyFlags) (r : AssetRecord) :
    (classify_step t0 f r).confidential_amount_nonconfidential_asset_type
      = (f.confidential_amount_nonconfidential_asset_type
          || (r.conf_amount && !r.conf_asset_type)) := by
  unfold classify_step
  by_cases h : t0 ≠ r.open_asset_record.asset_type <;>
    cases hca : r.conf_amount <;> cases hct : r.conf_asset_type <;>
      simp [h, hca, hct]

theorem classify_step_cat (t0 : AssetType) (f : ClassifyFlags) (r : AssetRecord) :
    (classify_step t0 f r).confidential_asset_type_nonconfidential_amount
      = (f.confidential_asset_type_nonconfidential_amount
          || (r.conf_asset_type && !r.conf_amount)) := by
  unfold classify_step
  by_cases h : t0 ≠ r.open_asset_record.asset_type <;>
    cases hca : r.conf_amount <;> cases hct : r.conf_asset_type <;>
      simp [h, hca, hct]

theorem classify_step_call (t0 : AssetType) (f : ClassifyFlags) (r : AssetRecord) :
    (classify_step t0 f r).confidential_all
      = (f.confidential_all || (r.conf_amount && r.conf_asset_type)) := by
  unfold classify_step
  by_cases h : t0 ≠ r.open_asset_record.asset_type <;>
    cases hca : r.conf_amount <;> cases hct : r.conf_asset_type <;>
      simp [h, hca, hct]

theorem classify_foldl (t0 : AssetType) (records : List AssetRecord) (f : ClassifyFlags) :
    records.foldl (classify_step t0) f =
      ⟨f.multi_asset || spec_multi_asset t0 records,
       f.confidential_amount_nonconfidential_asset_type || spec_amt_only_conf records,
       f.confidential_asset_type_nonconfidential_amount || spec_type_only_conf records,
       f.confidential_all || spec_all_conf records⟩ := by
  induction records generalizing f with
  | nil =>
    simp [spec_multi_asset, spec_amt_only_conf, spec_type_only_conf, spec_all_conf]
  | cons r rs ih =>
    rw [List.foldl_cons, ih]
    simp [spec_multi_asset, spec_amt_only_conf, spec_type_only_conf, spec_all_conf,
      classify_step_multi, classify_step_camt, classify_step_cat, classify_step_call,
      Bool.or_assoc]

theorem of_flags_eq_table (m all_conf amt_only type_only : Bool) :
    XfrType.of_flags ⟨m, amt_only, type_only, all_conf⟩
      = decision_table m all_conf amt_only type_only := by
  cases m <;> cases all_conf <;> cases amt_only <;> cases type_only <;> rfl

/-! ## Claims on the classifier -/

/-- C2: for every non-empty input list and every output list,
`XfrType::from_inputs_outputs` returns exactly the variant given by the
§4.1 decision table over the four flags `multi_asset`, `all_conf`,
`amt_only_conf`, `type_only_conf` computed across the concatenation of
inputs and outputs; in particular the table sends `multi = false`,
`amt_only = type_only = true` to `Confidential_SingleAsset`. -/
theorem claim_C2 (r0 : AssetRecord) (inputs outputs : List AssetRecord) :
    XfrType.from_inputs_outputs (r0 :: inputs) outputs =
      some (decision_table
        (spec_multi_asset r0.open_asset_record.asset_type ((r0 :: inputs) ++ outputs))
        (spec_all_conf ((r0 :: inputs) ++ outputs))
        (spec_amt_only_conf ((r0 :: inputs) ++ outputs))
        (spec_type_only_conf ((r0 :: inputs) ++ outputs)))
    ∧ ∀ all_conf : Bool,
        decision_table false all_conf true true = .Confidential_SingleAsset := by
  constructor
  · simp only [XfrType.from_inputs_outputs]
    rw [classify_foldl]
    simp [of_flags_eq_table]
  · intro ac
    cases ac <;> rfl

/-- C6 (counterexample): on an empty input list the classifier does not
return an `XfrType`: the source reads `inputs_record[0]`, which panics
(modelled as `none`), so it is not total on empty inputs. -/
theorem claim_C6_counterexample :
    XfrType.from_inputs_outputs [] [] = none := rfl

/-- C6 (amended): the classifier is a pure total function on every
*non-empty* input list: it always returns an `XfrType`; on an empty input
list the indexing `inputs_record[0]` panics instead. -/
theorem claim_C6 (r0 : AssetRecord) (inputs outputs : List AssetRecord) :
    (XfrType.from_inputs_outputs (r0 :: inputs) outputs).isSome = true := rfl

/-! ## Claims on the generation pipeline -/

/-- C5: the proof generator builds the proof dictated by the classification:
`NoProof` for `NonConfidential_SingleAsset`, `ConfAmount(range proof)` for
the confidential-amount single-asset type, `ConfAsset(asset proof)` for the
confidential-type single-asset type, `ConfAll(range proof, asset proof)`
for `Confidential_SingleAsset`; and every mismatched dispatch (a
multi-asset type in the single-asset generator or a single-asset type in
the multi-asset generator) returns `XfrCreationAssetAmountError`. -/
theorem claim_C5 (inputs outputs : List OpenAssetRecord) :
    gen_xfr_proofs_single_asset inputs outputs .NonConfidential_SingleAsset
      = .ok .NoProof
    ∧ (∃ rp, range_proof inputs outputs = .ok rp ∧
        gen_xfr_proofs_single_asset inputs outputs
          .ConfidentialAmount_NonConfidentialAssetType_SingleAsset
          = .ok (.ConfAmount rp))
    ∧ (∃ ap, asset_proof inputs outputs = .ok ap ∧
        gen_xfr_proofs_single_asset inputs outputs
          .NonConfidentialAmount_ConfidentialAssetType_SingleAsset
          = .ok (.ConfAsset ap))
    ∧ (∃ rp ap, range_proof inputs outputs = .ok rp ∧
        asset_proof inputs outputs = .ok ap ∧
        gen_xfr_proofs_single_asset inputs outputs .Confidential_SingleAsset
          = .ok (.ConfAll rp ap))
    ∧ gen_xfr_proofs_single_asset inputs outputs .Confidential_MultiAsset
      = .error .XfrCreationAssetAmountError
    ∧ gen_xfr_proofs_single_asset inputs outputs .NonConfidential_MultiAsset
      = .error .XfrCreationAssetAmountError
    ∧ gen_xfr_proofs_multi_asset inputs outputs .NonConfidential_SingleAsset
      = .error .XfrCreationAssetAmountError
    ∧ gen_xfr_proofs_multi_asset inputs outputs
        .ConfidentialAmount_NonConfidentialAssetType_SingleAsset
      = .error .XfrCreationAssetAmountError
    ∧ gen_xfr_proofs_multi_asset inputs outputs
        .NonConfidentialAmount_ConfidentialAssetType_SingleAsset
      = .error .XfrCreationAssetAmountError
    ∧ gen_xfr_proofs_multi_asset inputs outputs .Confidential_SingleAsset
      = .error .XfrCreationAssetAmountError :=
  ⟨rfl, ⟨_, rfl, rfl⟩, ⟨_, rfl, rfl⟩, ⟨_, _, rfl, rfl, rfl⟩,
   rfl, rfl, rfl, rfl, rfl, rfl⟩

/-- C10: on an empty input record list, `gen_xfr_note` and `gen_xfr_body`
return `ParameterError` for every output list and key list (the guard fires
before classification, balance checking or proof generation). -/
theorem claim_C10 (outputs : List AssetRecord) (keys : List XfrKeyPair) :
    gen_xfr_note [] outputs keys = .error .ParameterError
    ∧ gen_xfr_body [] outputs = .error .ParameterError :=
  ⟨rfl, rfl⟩

/-! ## Claim on the amount limb split -/

theorem u64_pair_eq (a : Nat) (h : a < 2 ^ 64) :
    u64_to_u32_pair a = (a % 2 ^ 32, a / 2 ^ 32) := by
  have hand : a &&& 0xFFFFFFFF = a % 2 ^ 32 := by
    have h32 : (0xFFFFFFFF : Nat) = 2 ^ 32 - 1 := by norm_num
    rw [h32, Nat.and_pow_two_sub_one_eq_mod]
  have hshift : a >>> 32 = a / 2 ^ 32 := Nat.shiftRight_eq_div_pow a 32
  have hdivlt : a / 2 ^ 32 < 2 ^ 32 := by
    apply Nat.div_lt_of_lt_mul
    calc a < 2 ^ 64 := h
    _ = 2 ^ 32 * 2 ^ 32 := by norm_num
  have hmodlt : a % 2 ^ 32 < 2 ^ 32 := Nat.mod_lt _ (by norm_num)
  unfold u64_to_u32_pair
  rw [hand, hshift, Nat.mod_eq_of_lt hmodlt, Nat.mod_eq_of_lt hdivlt]

theorem u64_pair_recombine (a : Nat) (h : a < 2 ^ 64) :
    (u64_to_u32_pair a).1 + 2 ^ 32 * (u64_to_u32_pair a).2 = a := by
  rw [u64_pair_eq a h]
  show a % 2 ^ 32 + 2 ^ 32 * (a / 2 ^ 32) = a
  omega

/-- C9: for every `u64` amount `a`, `u64_to_u32_pair` yields
`(a & 0xFFFFFFFF, a >> 32) = (a mod 2^32, a div 2^32)` and the
recombination `low + 2^32 · high` equals `a`. -/
theorem claim_C9 (a : Nat) (h : a < 2 ^ 64) :
    u64_to_u32_pair a = (a % 2 ^ 32, a / 2 ^ 32)
    ∧ (u64_to_u32_pair a).1 + 2 ^ 32 * (u64_to_u32_pair a).2 = a :=
  ⟨u64_pair_eq a h, u64_pair_recombine a h⟩

/-- Witness for C9 at the largest `u64` amount. -/
theorem claim_C9_witness :
    (0xFFFFFFFFFFFFFFFF : Nat) < 2 ^ 64
    ∧ (u64_to_u32_pair 0xFFFFFFFFFFFFFFFF
        = (0xFFFFFFFFFFFFFFFF % 2 ^ 32, 0xFFFFFFFFFFFFFFFF / 2 ^ 32)
      ∧ (u64_to_u32_pair 0xFFFFFFFFFFFFFFFF).1
          + 2 ^ 32 * (u64_to_u32_pair 0xFFFFFFFFFFFFFFFF).2 = 0xFFFFFFFFFFFFFFFF) :=
  ⟨by norm_num, claim_C9 0xFFFFFFFFFFFFFFFF (by norm_num)⟩

/-! ## Grouped signed-sum lemmas -/

theorem glookup_sum_cons (g : AssetType × List Int) (m : List (AssetType × List Int))
    (t : AssetType) :
    glookup_sum (g :: m) t = (if g.1 = t then g.2.sum else 0) + glookup_sum m t := by
  by_cases h : g.1 = t <;> simp [glookup_sum, List.filter_cons, h]

theorem entries_sum_cons (e : AssetType × Int) (entries : List (AssetType × Int))
    (t : AssetType) :
    entries_sum t (e :: entries) = (if e.1 = t then e.2 else 0) + entries_sum t entries := by
  by_cases h : e.1 = t <;> simp [entries_sum, List.filter_cons, h]

theorem entries_sum_append (l1 l2 : List (AssetType × Int)) (t : AssetType) :
    entries_sum t (l1 ++ l2) = entries_sum t l1 + entries_sum t l2 := by
  simp [entries_sum, List.filter_append]

theorem entries_sum_eq_zero_of_not_mem (entries : List (AssetType × Int)) (t : AssetType)
    (h : t ∉ entries.map Prod.fst) : entries_sum t entries = 0 := by
  induction entries with
  | nil => rfl
  | cons e es ih =>
    simp only [List.map_cons, List.mem_cons] at h
    push_neg at h
    rw [entries_sum_cons, ih h.2, if_neg (fun he => h.1 he.symm)]
    omega

theorem glookup_sum_eq_zero_of_not_mem (m : List (AssetType × List Int)) (t : AssetType)
    (h : t ∉ m.map Prod.fst) : glookup_sum m t = 0 := by
  induction m with
  | nil => rfl
  | cons g gs ih =>
    simp only [List.map_cons, List.mem_cons] at h
    push_neg at h
    rw [glookup_sum_cons, ih h.2, if_neg (fun he => h.1 he.symm)]
    omega

theorem push_amount_keys (m : List (AssetType × List Int)) (t : AssetType) (v : Int) :
    (push_amount m t v).map Prod.fst
      = if t ∈ m.map Prod.fst then m.map Prod.fst else m.map Prod.fst ++ [t] := by
  induction m with
  | nil => simp [push_amount]
  | cons g rest ih =>
    obtain ⟨t', vs⟩ := g
    by_cases h : t = t'
    · subst h
      simp [push_amount]
    · simp only [push_amount, if_neg h, List.map_cons, ih]
      by_cases hm : t ∈ rest.map Prod.fst
      · simp [hm, List.mem_cons, h]
      · simp [hm, List.mem_cons, h]

theorem push_amount_keys_nodup (m : List (AssetType × List Int)) (t : AssetType) (v : Int)
    (hm : (m.map Prod.fst).Nodup) : ((push_amount m t v).map Prod.fst).Nodup := by
  rw [push_amount_keys]
  by_cases h : t ∈ m.map Prod.fst
  · simpa [h] using hm
  · rw [if_neg h, List.nodup_append]
    refine ⟨hm, List.nodup_singleton t, ?_⟩
    intro a ha hat
    rw [List.mem_singleton] at hat
    exact h (hat ▸ ha)

theorem push_amount_glookup (m : List (AssetType × List Int)) (t : AssetType) (v : Int)
    (t' : AssetType) :
    glookup_sum (push_amount m t v) t'
      = glookup_sum m t' + (if t = t' then v else 0) := by
  induction m with
  | nil =>
    by_cases h : t = t' <;> simp [push_amount, glookup_sum, List.filter_cons, h]
  | cons g rest ih =>
    obtain ⟨t'', vs⟩ := g
    by_cases h : t = t''
    · subst h
      rw [push_amount, if_pos rfl, glookup_sum_cons, glookup_sum_cons]
      by_cases h' : t = t' <;> simp [h'] <;> omega
    · rw [push_amount, if_neg h, glookup_sum_cons, glookup_sum_cons, ih]
      omega

theorem foldl_push_glookup (entries : List (AssetType × Int))
    (m : List (AssetType × List Int)) (t : AssetType) :
    glookup_sum (entries.foldl (fun m e => push_amount m e.1 e.2) m) t
      = glookup_sum m t + entries_sum t entries := by
  induction entries generalizing m with
  | nil => simp [entries_sum]
  | cons e es ih =>
    rw [List.foldl_cons, ih, push_amount_glookup, entries_sum_cons]
    omega

theorem foldl_push_keys_mem (entries : List (AssetType × Int))
    (m : List (AssetType × List Int)) (t : AssetType) :
    t ∈ ((entries.foldl (fun m e => push_amount m e.1 e.2) m).map Prod.fst)
      ↔ t ∈ m.map Prod.fst ∨ t ∈ entries.map Prod.fst := by
  induction entries generalizing m with
  | nil => simp
  | cons e es ih =>
    rw [List.foldl_cons, ih, push_amount_keys]
    by_cases h : e.1 ∈ m.map Prod.fst
    · simp only [if_pos h, List.map_cons, List.mem_cons]
      constructor
      · rintro (hm | he)
        · exact Or.inl hm
        · exact Or.inr (Or.inr he)
      · rintro (hm | rfl | he)
        · exact Or.inl hm
        · exact Or.inl h
        · exact Or.inr he
    · simp only [if_neg h, List.map_cons, List.mem_cons, List.mem_append,
        List.mem_singleton]
      tauto

theorem foldl_push_keys_nodup (entries : List (AssetType × Int))
    (m : List (AssetType × List Int)) (hm : (m.map Prod.fst).Nodup) :
    (((entries.foldl (fun m e => push_amount m e.1 e.2) m)).map Prod.fst).Nodup := by
  induction entries generalizing m with
  | nil => exact hm
  | cons e es ih =>
    rw [List.foldl_cons]
    exact ih _ (push_amount_keys_nodup _ _ _ hm)

theorem glookup_of_mem (m : List (AssetType × List Int))
    (hm : (m.map Prod.fst).Nodup) (g : AssetType × List Int) (hg : g ∈ m) :
    glookup_sum m g.1 = g.2.sum := by
  induction m with
  | nil => cases hg
  | cons g' rest ih =>
    simp only [List.map_cons, List.nodup_cons] at hm
    rcases List.mem_cons.mp hg with rfl | hg'
    · rw [glookup_sum_cons, if_pos rfl,
        glookup_sum_eq_zero_of_not_mem rest g.1 hm.1]
      omega
    · have hne : g'.1 ≠ g.1 := by
        intro he
        exact hm.1 (he ▸ (List.mem_map.mpr ⟨g, hg', rfl⟩))
      rw [glookup_sum_cons, if_neg hne, ih hm.2 hg']
      omega

theorem signed_groups_all_nonneg_iff (entries : List (AssetType × Int)) :
    ((signed_groups entries).all (fun g => decide (0 ≤ g.2.sum))) = true
      ↔ ∀ t : AssetType, 0 ≤ entries_sum t entries := by
  unfold signed_groups
  rw [List.all_eq_true]
  constructor
  · intro h t
    by_cases hmem : t ∈ entries.map Prod.fst
    · have hkey : t ∈ ((entries.foldl (fun m e => push_amount m e.1 e.2) []).map Prod.fst) :=
        (foldl_push_keys_mem entries [] t).mpr (Or.inr hmem)
      obtain ⟨g, hg, hfst⟩ := List.mem_map.mp hkey
      have hsum := h g hg
      rw [decide_eq_true_iff] at hsum
      have := glookup_of_mem _ (foldl_push_keys_nodup entries [] (by simp)) g hg
      rw [hfst] at this
      rw [foldl_push_glookup] at this
      simp only [glookup_sum, List.filter_nil, List.map_nil, List.sum_nil, zero_add] at this
      omega
    · rw [entries_sum_eq_zero_of_not_mem entries t hmem]
  · intro h g hg
    rw [decide_eq_true_iff]
    have hlk := glookup_of_mem _ (foldl_push_keys_nodup entries [] (by simp)) g hg
    rw [foldl_push_glookup] at hlk
    simp only [glookup_sum, List.filter_nil, List.map_nil, List.sum_nil, zero_add] at hlk
    have := h g.1
    omega

theorem entries_sum_pos_map (l : List AssetRecord) (t : AssetType) :
    entries_sum t (l.map (fun r =>
        ((r.open_asset_record.asset_type, (r.open_asset_record.amount : Int))
          : AssetType × Int)))
      = (amount_sum t l : Int) := by
  induction l with
  | nil => simp [entries_sum, amount_sum]
  | cons r rs ih =>
    rw [List.map_cons, entries_sum_cons, ih]
    by_cases h : r.open_asset_record.asset_type = t <;>
      simp [amount_sum, List.filter_cons, h] at * <;> omega

theorem entries_sum_neg_map (l : List AssetRecord) (t : AssetType) :
    entries_sum t (l.map (fun r =>
        ((r.open_asset_record.asset_type, -(r.open_asset_record.amount : Int))
          : AssetType × Int)))
      = -(amount_sum t l : Int) := by
  induction l with
  | nil => simp [entries_sum, amount_sum]
  | cons r rs ih =>
    rw [List.map_cons, entries_sum_cons, ih]
    by_cases h : r.open_asset_record.asset_type = t <;>
      simp [amount_sum, List.filter_cons, h] at * <;> omega

theorem entries_sum_creation (inputs outputs : List AssetRecord) (t : AssetType) :
    entries_sum t (creation_entries inputs outputs)
      = (amount_sum t inputs : Int) - (amount_sum t outputs : Int) := by
  unfold creation_entries
  rw [entries_sum_append, entries_sum_pos_map, entries_sum_neg_map]
  omega

theorem check_asset_amount_ok_iff (inputs outputs : List AssetRecord) :
    check_asset_amount inputs outputs = .ok ()
      ↔ ∀ t : AssetType, (amount_sum t outputs : Int) ≤ (amount_sum t inputs : Int) := by
  unfold check_asset_amount
  by_cases h : ((signed_groups (creation_entries inputs outputs)).all
      (fun g => decide (0 ≤ g.2.sum))) = true
  · rw [if_pos h]
    rw [signed_groups_all_nonneg_iff] at h
    simp only [true_iff]
    intro t
    have := h t
    rw [entries_sum_creation] at this
    omega
  · rw [if_neg h]
    rw [signed_groups_all_nonneg_iff] at h
    push_neg at h
    obtain ⟨t, ht⟩ := h
    rw [entries_sum_creation] at ht
    refine iff_of_false (by intro hc; cases hc) ?_
    intro hall
    have := hall t
    omega

/-- C4: `check_asset_amount` groups the records by asset type, sums inputs
minus outputs per group in signed 128-bit arithmetic (exact for any
addressable vector of `u64`-derived terms), returns `Ok` exactly when every
group's sum is non-negative and `XfrCreationAssetAmountError` otherwise;
for example inputs `(10, A)`, outputs `(11, A)` fail at `gen_xfr_body`. -/
theorem claim_C4 (inputs outputs : List AssetRecord) :
    (check_asset_amount inputs outputs = .ok ()
      ↔ ∀ t : AssetType, (amount_sum t outputs : Int) ≤ (amount_sum t inputs : Int))
    ∧ (check_asset_amount inputs outputs = .error .XfrCreationAssetAmountError
      ↔ ¬ ∀ t : AssetType, (amount_sum t outputs : Int) ≤ (amount_sum t inputs : Int))
    ∧ gen_xfr_body [mkRecord (plainOAR 10 typeA 1)] [mkRecord (plainOAR 11 typeA 2)]
        = .error .XfrCreationAssetAmountError := by
  refine ⟨check_asset_amount_ok_iff inputs outputs, ?_, by decide⟩
  rw [← check_asset_amount_ok_iff inputs outputs]
  unfold check_asset_amount
  by_cases h : ((signed_groups (creation_entries inputs outputs)).all
      (fun g => decide (0 ≤ g.2.sum))) = true
  · rw [if_pos h]
    exact iff_of_false (by intro hc; cases hc) (fun hn => hn rfl)
  · rw [if_neg h]
    exact iff_of_true rfl (by intro hc; cases hc)

/-! ## Plain-amount verification lemmas -/

theorem safe_sum_foldl_exact (terms : List Nat) (acc : Nat)
    (h : acc + terms.sum < 2 ^ 128) :
    terms.foldl (fun acc x => (acc + x) % 2 ^ 128) acc = acc + terms.sum := by
  induction terms generalizing acc with
  | nil => simp
  | cons x xs ih =>
    rw [List.foldl_cons]
    rw [List.sum_cons] at h
    have hx : acc + x < 2 ^ 128 := by omega
    rw [Nat.mod_eq_of_lt hx, ih (acc + x) (by omega), List.sum_cons]
    omega

theorem safe_sum_u64_exact (terms : List Nat) (hterms : ∀ x ∈ terms, x < 2 ^ 64)
    (hlen : terms.length ≤ 2 ^ 64) : safe_sum_u64 terms = terms.sum := by
  have hbound : terms.sum ≤ terms.length * (2 ^ 64 - 1) := by
    calc terms.sum ≤ terms.length • (2 ^ 64 - 1) :=
          List.sum_le_card_nsmul terms _ (fun x hx => by have := hterms x hx; omega)
    _ = terms.length * (2 ^ 64 - 1) := by simp [smul_eq_mul]
  have hsum : terms.sum < 2 ^ 128 := by
    have h2 : terms.length * (2 ^ 64 - 1) ≤ 2 ^ 64 * (2 ^ 64 - 1) :=
      Nat.mul_le_mul_right _ hlen
    have h3 : 2 ^ 64 * (2 ^ 64 - 1) < 2 ^ 128 := by norm_num
    omega
  unfold safe_sum_u64
  rw [safe_sum_foldl_exact terms 0 (by omega)]
  omega

theorem mapM_amounts_of_plain (l : List BlindAssetRecord) (h : l.all plain_u64 = true) :
    l.mapM (·.amount.get_amount) = some (plain_amounts l) := by
  induction l with
  | nil => rfl
  | cons b bs ih =>
    rw [List.all_cons, Bool.and_eq_true] at h
    obtain ⟨hb, hbs⟩ := h
    cases hamt : b.amount with
    | NonConfidential a =>
      rw [List.mapM_cons, ih hbs]
      simp [XfrAmount.get_amount, hamt, plain_amounts, List.filterMap_cons]
    | Confidential c1 c2 =>
      rw [plain_u64, hamt] at hb
      cases hb

theorem plain_amounts_lt (l : List BlindAssetRecord) (h : l.all plain_u64 = true) :
    ∀ x ∈ plain_amounts l, x < 2 ^ 64 := by
  intro x hx
  obtain ⟨b, hb, hget⟩ := List.mem_filterMap.mp hx
  have hball := (List.all_eq_true.mp h) b hb
  cases hamt : b.amount with
  | NonConfidential a =>
    rw [plain_u64, hamt] at hball
    rw [hamt] at hget
    simp only [XfrAmount.get_amount, Option.some_inj] at hget
    subst hget
    exact of_decide_eq_true hball
  | Confidential c1 c2 =>
    rw [plain_u64, hamt] at hball
    cases hball

/-- C7: on records whose amounts are all revealed `u64`s, the promoted
`u128` summation of `verify_plain_amounts` is exact (no overflow even near
`u64::MAX`), and the check returns `Ok` exactly when the input sum is at
least the output sum, `XfrVerifyAssetAmountError` otherwise. -/
theorem claim_C7 (inputs outputs : List BlindAssetRecord)
    (hin : inputs.all plain_u64 = true) (hout : outputs.all plain_u64 = true)
    (hlin : inputs.length ≤ 2 ^ 64) (hlout : outputs.length ≤ 2 ^ 64) :
    safe_sum_u64 (plain_amounts inputs) = (plain_amounts inputs).sum
    ∧ safe_sum_u64 (plain_amounts outputs) = (plain_amounts outputs).sum
    ∧ (verify_plain_amounts inputs outputs = some (.ok ())
        ↔ (plain_amounts outputs).sum ≤ (plain_amounts inputs).sum)
    ∧ (verify_plain_amounts inputs outputs = some (.error .XfrVerifyAssetAmountError)
        ↔ (plain_amounts inputs).sum < (plain_amounts outputs).sum) := by
  have hlin' : (plain_amounts inputs).length ≤ 2 ^ 64 :=
    le_trans (List.length_filterMap_le _ _) hlin
  have hlout' : (plain_amounts outputs).length ≤ 2 ^ 64 :=
    le_trans (List.length_filterMap_le _ _) hlout
  have hsin : safe_sum_u64 (plain_amounts inputs) = (plain_amounts inputs).sum :=
    safe_sum_u64_exact _ (plain_amounts_lt inputs hin) hlin'
  have hsout : safe_sum_u64 (plain_amounts outputs) = (plain_amounts outputs).sum :=
    safe_sum_u64_exact _ (plain_amounts_lt outputs hout) hlout'
  have hvp : verify_plain_amounts inputs outputs
      = if (plain_amounts inputs).sum < (plain_amounts outputs).sum
        then some (.error .XfrVerifyAssetAmountError) else some (.ok ()) := by
    unfold verify_plain_amounts
    rw [mapM_amounts_of_plain inputs hin, mapM_amounts_of_plain outputs hout]
    simp only [Option.bind_eq_bind, Option.some_bind]
    rw [hsin, hsout]
  refine ⟨hsin, hsout, ?_, ?_⟩
  · rw [hvp]
    split_ifs with h
    · exact iff_of_false (by intro hc; simp at hc) (by omega)
    · exact iff_of_true rfl (by omega)
  · rw [hvp]
    split_ifs with h
    · exact iff_of_true rfl h
    · exact iff_of_false (by intro hc; simp at hc) (by omega)

/-- Witness for C7: two inputs of `2^64 - 1` cover one output of `2^64 - 1`
and one of `2^64 - 2`, with exact `u128` sums. -/
theorem claim_C7_witness :
    ([sampleBar (2 ^ 64 - 1), sampleBar (2 ^ 64 - 1)].all plain_u64 = true)
    ∧ ([sampleBar (2 ^ 64 - 1), sampleBar (2 ^ 64 - 2)].all plain_u64 = true)
    ∧ ([sampleBar (2 ^ 64 - 1), sampleBar (2 ^ 64 - 1)].length ≤ 2 ^ 64)
    ∧ ([sampleBar (2 ^ 64 - 1), sampleBar (2 ^ 64 - 2)].length ≤ 2 ^ 64)
    ∧ (safe_sum_u64 (plain_amounts [sampleBar (2 ^ 64 - 1), sampleBar (2 ^ 64 - 1)])
        = (plain_amounts [sampleBar (2 ^ 64 - 1), sampleBar (2 ^ 64 - 1)]).sum
      ∧ safe_sum_u64 (plain_amounts [sampleBar (2 ^ 64 - 1), sampleBar (2 ^ 64 - 2)])
        = (plain_amounts [sampleBar (2 ^ 64 - 1), sampleBar (2 ^ 64 - 2)]).sum
      ∧ (verify_plain_amounts [sampleBar (2 ^ 64 - 1), sampleBar (2 ^ 64 - 1)]
            [sampleBar (2 ^ 64 - 1), sampleBar (2 ^ 64 - 2)] = some (.ok ())
          ↔ (plain_amounts [sampleBar (2 ^ 64 - 1), sampleBar (2 ^ 64 - 2)]).sum
              ≤ (plain_amounts [sampleBar (2 ^ 64 - 1), sampleBar (2 ^ 64 - 1)]).sum)
      ∧ (verify_plain_amounts [sampleBar (2 ^ 64 - 1), sampleBar (2 ^ 64 - 1)]
            [sampleBar (2 ^ 64 - 1), sampleBar (2 ^ 64 - 2)]
            = some (.error .XfrVerifyAssetAmountError)
          ↔ (plain_amounts [sampleBar (2 ^ 64 - 1), sampleBar (2 ^ 64 - 1)]).sum
              < (plain_amounts [sampleBar (2 ^ 64 - 1), sampleBar (2 ^ 64 - 2)]).sum)) :=
  ⟨by decide, by decide, by decide, by decide,
   claim_C7 [sampleBar (2 ^ 64 - 1), sampleBar (2 ^ 64 - 1)]
     [sampleBar (2 ^ 64 - 1), sampleBar (2 ^ 64 - 2)]
     (by decide) (by decide) (by decide) (by decide)⟩

/-! ## Tracing-memo walk lemmas -/

theorem memo_foldl_filter (bar : BlindAssetRecord) (ms : List AssetTracerMemo)
    (key : AssetTracerEncKeys) (acc : List (BlindAssetRecord × AssetTracerMemo)) :
    ms.foldl (fun acc memo => if memo.enc_key == key then acc ++ [(bar, memo)] else acc) acc
      = acc ++ (ms.filter (fun m => m.enc_key == key)).map (fun m => (bar, m)) := by
  induction ms generalizing acc with
  | nil => simp
  | cons m ms ih =>
    rw [List.foldl_cons]
    by_cases h : m.enc_key == key
    · rw [if_pos h, ih, List.filter_cons, if_pos h]
      simp
    · rw [if_neg h, ih, List.filter_cons, if_neg h]

theorem find_foldl (pairs : List (BlindAssetRecord × List AssetTracerMemo))
    (key : AssetTracerEncKeys) (acc : List (BlindAssetRecord × AssetTracerMemo)) :
    pairs.foldl
        (fun result p =>
          p.2.foldl
            (fun result memo =>
              if memo.enc_key == key then result ++ [(p.1, memo)] else result)
            result)
        acc
      = acc ++ pairs.flatMap
          (fun p => (p.2.filter (fun m => m.enc_key == key)).map (fun m => (p.1, m))) := by
  induction pairs generalizing acc with
  | nil => simp
  | cons p ps ih =>
    rw [List.foldl_cons, memo_foldl_filter, ih, List.flatMap_cons]
    simp

/-- C8: `find_tracing_memos` returns `InconsistentStructureError` exactly
when the memo-list count differs from `|inputs| + |outputs|`; otherwise it
walks inputs then outputs in order, each record's memo list in order, and
returns precisely the `(record, memo)` pairs whose memo `enc_key` equals the
tracer key, order preserved. -/
theorem claim_C8 (xfr_body : XfrBody) (pub_key : AssetTracerEncKeys) :
    (find_tracing_memos xfr_body pub_key = .error .InconsistentStructureError
      ↔ xfr_body.inputs.length + xfr_body.outputs.length
          ≠ xfr_body.asset_tracing_memos.length)
    ∧ (xfr_body.inputs.length + xfr_body.outputs.length
          = xfr_body.asset_tracing_memos.length →
        find_tracing_memos xfr_body pub_key
          = .ok (((xfr_body.inputs ++ xfr_body.outputs).zip
                xfr_body.asset_tracing_memos).flatMap
              (fun p => (p.2.filter (fun m => m.enc_key == pub_key)).map
                (fun m => (p.1, m))))) := by
  unfold find_tracing_memos
  by_cases hlen : xfr_body.inputs.length + xfr_body.outputs.length
      ≠ xfr_body.asset_tracing_memos.length
  · rw [if_pos hlen]
    exact ⟨iff_of_true rfl hlen, fun h => absurd h hlen⟩
  · rw [if_neg hlen]
    refine ⟨iff_of_false (by intro hc; cases hc) hlen, fun _ => ?_⟩
    rw [find_foldl]
    rw [List.nil_append]

/-- Witness for C8 on a two-record body with two memos per record. -/
theorem claim_C8_witness :
    sampleMemoBody.inputs.length + sampleMemoBody.outputs.length
      = sampleMemoBody.asset_tracing_memos.length
    ∧ find_tracing_memos sampleMemoBody 42
        = .ok (((sampleMemoBody.inputs ++ sampleMemoBody.outputs).zip
              sampleMemoBody.asset_tracing_memos).flatMap
            (fun p => (p.2.filter (fun m => m.enc_key == 42)).map
              (fun m => (p.1, m)))) :=
  ⟨by decide, (claim_C8 sampleMemoBody 42).2 (by decide)⟩

/-! ## Batched-verification lemmas -/

theorem except_chain_ok (e1 e2 e3 : Except ZeiError Unit) :
    ((do e1; e2; e3 : Except ZeiError Unit) = .ok ())
      ↔ e1 = .ok () ∧ e2 = .ok () ∧ e3 = .ok () := by
  cases e1 with
  | error a => simp [Bind.bind, Except.bind]
  | ok u =>
    cases u
    cases e2 with
    | error a => simp [Bind.bind, Except.bind]
    | ok u =>
      cases u
      simp [Bind.bind, Except.bind]

theorem bvca_ok_iff
    (pool : List (List BlindAssetRecord × List BlindAssetRecord × RangeProof)) :
    batch_verify_confidential_amount pool = .ok ()
      ↔ pool.all (fun e => e.2.2.ins == e.1 && e.2.2.outs == e.2.1) = true := by
  unfold batch_verify_confidential_amount
  by_cases h : pool.all (fun e => e.2.2.ins == e.1 && e.2.2.outs == e.2.1) = true
  · rw [if_pos h]
    exact iff_of_true rfl h
  · rw [if_neg h]
    exact iff_of_false (by intro hc; cases hc) h

theorem bvcs_ok_iff
    (pool : List (List BlindAssetRecord × List BlindAssetRecord × AssetEqualityProof)) :
    batch_verify_confidential_asset pool = .ok ()
      ↔ pool.all (fun e => e.2.2.ins == e.1 && e.2.2.outs == e.2.1) = true := by
  unfold batch_verify_confidential_asset
  by_cases h : pool.all (fun e => e.2.2.ins == e.1 && e.2.2.outs == e.2.1) = true
  · rw [if_pos h]
    exact iff_of_true rfl h
  · rw [if_neg h]
    exact iff_of_false (by intro hc; cases hc) h

theorem bvam_ok_iff
    (pool : List (List BlindAssetRecord × List BlindAssetRecord × AssetMixProof)) :
    batch_verify_asset_mix pool = .ok ()
      ↔ pool.all (fun e =>
          process_bars e.1 == e.2.2.ins.map tuple_to_coms
          && process_bars e.2.1 == e.2.2.outs.map tuple_to_coms) = true := by
  unfold batch_verify_asset_mix batch_verify_asset_mixing
  split
  next h =>
    refine iff_of_true rfl ?_
    rw [List.all_eq_true] at h ⊢
    intro e he
    exact h _ (List.mem_map.mpr ⟨e, he, rfl⟩)
  next h =>
    refine iff_of_false (by intro hc; cases hc) ?_
    intro hall
    apply h
    rw [List.all_eq_true] at hall ⊢
    intro inst hinst
    obtain ⟨e, he, rfl⟩ := List.mem_map.mp hinst
    exact hall e he

theorem scan_bodies_ok (bodies : List XfrBody) (pools : ProofPools)
    (h : ∀ b ∈ bodies, body_plain_check b = some (.ok ())) :
    scan_bodies bodies pools = some (.ok
      ⟨pools.conf_amount ++ bodies.flatMap camt_entries,
       pools.conf_asset ++ bodies.flatMap casset_entries,
       pools.asset_mix ++ bodies.flatMap mix_entries⟩) := by
  induction bodies generalizing pools with
  | nil => simp [scan_bodies]
  | cons b bs ih =>
    have hb := h b (List.mem_cons_self b bs)
    have hbs : ∀ x ∈ bs, body_plain_check x = some (.ok ()) :=
      fun x hx => h x (List.mem_cons_of_mem b hx)
    cases hproof : b.proofs.asset_type_and_amount_proof with
    | ConfAll rp ap =>
      simp only [scan_bodies, hproof]
      rw [ih _ hbs]
      simp [camt_entries, casset_entries, mix_entries, hproof, List.flatMap_cons]
    | ConfAmount rp =>
      simp only [body_plain_check, hproof] at hb
      simp only [scan_bodies, hproof]
      rw [hb]
      simp only [Option.bind_eq_bind, Option.some_bind]
      rw [ih _ hbs]
      simp [camt_entries, casset_entries, mix_entries, hproof, List.flatMap_cons]
    | ConfAsset ap =>
      simp only [body_plain_check, hproof] at hb
      simp only [scan_bodies, hproof]
      rw [hb]
      simp only [Option.bind_eq_bind, Option.some_bind]
      rw [ih _ hbs]
      simp [camt_entries, casset_entries, mix_entries, hproof, List.flatMap_cons]
    | NoProof =>
      simp only [body_plain_check, hproof] at hb
      simp only [scan_bodies, hproof]
      rw [hb]
      simp only [Option.bind_eq_bind, Option.some_bind]
      rw [ih _ hbs]
      simp [camt_entries, casset_entries, mix_entries, hproof, List.flatMap_cons]
    | AssetMix mp =>
      simp only [scan_bodies, hproof]
      rw [ih _ hbs]
      simp [camt_entries, casset_entries, mix_entries, hproof, List.flatMap_cons]

theorem scan_bodies_checks (bodies : List XfrBody) (pools : ProofPools)
    (r : ProofPools) (h : scan_bodies bodies pools = some (.ok r)) :
    ∀ b ∈ bodies, body_plain_check b = some (.ok ()) := by
  induction bodies generalizing pools with
  | nil => intro b hb; cases hb
  | cons b bs ih =>
    intro x hx
    cases hproof : b.proofs.asset_type_and_amount_proof with
    | ConfAll rp ap =>
      simp only [scan_bodies, hproof] at h
      rcases List.mem_cons.mp hx with rfl | hx'
      · simp [body_plain_check, hproof]
      · exact ih _ h x hx'
    | ConfAmount rp =>
      simp only [scan_bodies, hproof] at h
      cases hv : verify_plain_asset b.inputs b.outputs with
      | none => rw [hv] at h; simp at h
      | some res =>
        rw [hv] at h
        simp only [Option.bind_eq_bind, Option.some_bind] at h
        cases res with
        | error e => simp at h
        | ok u =>
          cases u
          rcases List.mem_cons.mp hx with rfl | hx'
          · rw [body_plain_check, hproof]
            exact hv
          · exact ih _ h x hx'
    | ConfAsset ap =>
      simp only [scan_bodies, hproof] at h
      cases hv : verify_plain_amounts b.inputs b.outputs with
      | none => rw [hv] at h; simp at h
      | some res =>
        rw [hv] at h
        simp only [Option.bind_eq_bind, Option.some_bind] at h
        cases res with
        | error e => simp at h
        | ok u =>
          cases u
          rcases List.mem_cons.mp hx with rfl | hx'
          · rw [body_plain_check, hproof]
            exact hv
          · exact ih _ h x hx'
    | NoProof =>
      simp only [scan_bodies, hproof] at h
      cases hv : verify_plain_asset_mix b.inputs b.outputs with
      | none => rw [hv] at h; simp at h
      | some res =>
        rw [hv] at h
        simp only [Option.bind_eq_bind, Option.some_bind] at h
        cases res with
        | error e => simp at h
        | ok u =>
          cases u
          rcases List.mem_cons.mp hx with rfl | hx'
          · rw [body_plain_check, hproof]
            exact hv
          · exact ih _ h x hx'
    | AssetMix mp =>
      simp only [scan_bodies, hproof] at h
      rcases List.mem_cons.mp hx with rfl | hx'
      · simp [body_plain_check, hproof]
      · exact ih _ h x hx'

theorem pool_all_flatMap_camt (bodies : List XfrBody) :
    ((bodies.flatMap camt_entries).all
        (fun e => e.2.2.ins == e.1 && e.2.2.outs == e.2.1) = true)
      ↔ ∀ b ∈ bodies, (camt_entries b).all
          (fun e => e.2.2.ins == e.1 && e.2.2.outs == e.2.1) = true := by
  simp [List.all_eq_true, List.mem_flatMap]

theorem pool_all_flatMap_casset (bodies : List XfrBody) :
    ((bodies.flatMap casset_entries).all
        (fun e => e.2.2.ins == e.1 && e.2.2.outs == e.2.1) = true)
      ↔ ∀ b ∈ bodies, (casset_entries b).all
          (fun e => e.2.2.ins == e.1 && e.2.2.outs == e.2.1) = true := by
  simp [List.all_eq_true, List.mem_flatMap]

theorem pool_all_flatMap_mix (bodies : List XfrBody) :
    ((bodies.flatMap mix_entries).all
        (fun e => process_bars e.1 == e.2.2.ins.map tuple_to_coms
          && process_bars e.2.1 == e.2.2.outs.map tuple_to_coms) = true)
      ↔ ∀ b ∈ bodies, (mix_entries b).all
          (fun e => process_bars e.1 == e.2.2.ins.map tuple_to_coms
            && process_bars e.2.1 == e.2.2.outs.map tuple_to_coms) = true := by
  simp [List.all_eq_true, List.mem_flatMap]

theorem batch_records_ok_iff (bodies : List XfrBody) :
    batch_verify_xfr_body_asset_records bodies = some (.ok ())
      ↔ ∀ b ∈ bodies,
          body_plain_check b = some (.ok ()) ∧ body_pool_ok b = true := by
  unfold batch_verify_xfr_body_asset_records
  constructor
  · intro h
    cases hscan : scan_bodies bodies ⟨[], [], []⟩ with
    | none => rw [hscan] at h; simp at h
    | some res =>
      rw [hscan] at h
      simp only [Option.bind_eq_bind, Option.some_bind] at h
      cases res with
      | error e => simp at h
      | ok pools =>
        have hchecks := scan_bodies_checks bodies _ _ hscan
        have hpools := scan_bodies_ok bodies ⟨[], [], []⟩ hchecks
        rw [hscan] at hpools
        simp only [Option.some_inj, Except.ok.injEq] at hpools
        subst hpools
        simp only [Option.some_inj] at h
        rw [except_chain_ok] at h
        simp only [List.nil_append] at h
        rw [bvca_ok_iff, pool_all_flatMap_camt] at h
        rw [bvcs_ok_iff, pool_all_flatMap_casset] at h
        rw [bvam_ok_iff, pool_all_flatMap_mix] at h
        intro b hb
        refine ⟨hchecks b hb, ?_⟩
        rw [body_pool_ok]
        rw [Bool.and_eq_true, Bool.and_eq_true]
        exact ⟨⟨h.1 b hb, h.2.1 b hb⟩, h.2.2 b hb⟩
  · intro h
    rw [scan_bodies_ok bodies ⟨[], [], []⟩ (fun b hb => (h b hb).1)]
    simp only [Option.bind_eq_bind, Option.some_bind, Option.some_inj]
    rw [except_chain_ok]
    simp only [List.nil_append]
    rw [bvca_ok_iff, pool_all_flatMap_camt,
      bvcs_ok_iff, pool_all_flatMap_casset,
      bvam_ok_iff, pool_all_flatMap_mix]
    have hp : ∀ b ∈ bodies, body_pool_ok b = true := fun b hb => (h b hb).2
    refine ⟨fun b hb => ?_, fun b hb => ?_, fun b hb => ?_⟩
    · have := hp b hb
      rw [body_pool_ok, Bool.and_eq_true, Bool.and_eq_true] at this
      exact this.1.1
    · have := hp b hb
      rw [body_pool_ok, Bool.and_eq_true, Bool.and_eq_true] at this
      exact this.1.2
    · have := hp b hb
      rw [body_pool_ok, Bool.and_eq_true, Bool.and_eq_true] at this
      exact this.2

theorem bvttp_ok_iff (bodies : List XfrBody) (policies : List XfrNotePolicies) :
    batch_verify_tracer_tracking_proof bodies policies = .ok ()
      ↔ bodies.length = policies.length
        ∧ ∀ p ∈ bodies.zip policies, tracer_tracking_ok p.1 p.2 = true := by
  unfold batch_verify_tracer_tracking_proof
  by_cases hlen : bodies.length ≠ policies.length
  · rw [if_pos hlen]
    exact iff_of_false (by intro hc; cases hc) (fun hr => hlen hr.1)
  · rw [if_neg hlen]
    push_neg at hlen
    by_cases hall : ((bodies.zip policies).all
        (fun p => tracer_tracking_ok p.1 p.2)) = true
    · rw [if_pos hall]
      rw [List.all_eq_true] at hall
      exact iff_of_true rfl ⟨hlen, hall⟩
    · rw [if_neg hall]
      rw [List.all_eq_true] at hall
      exact iff_of_false (by intro hc; cases hc) (fun hr => hall hr.2)

theorem batch_bodies_ok_iff (bodies : List XfrBody) (policies : List XfrNotePolicies) :
    batch_verify_xfr_bodies bodies policies = some (.ok ())
      ↔ (∀ b ∈ bodies, body_plain_check b = some (.ok ()) ∧ body_pool_ok b = true)
        ∧ bodies.length = policies.length
        ∧ ∀ p ∈ bodies.zip policies, tracer_tracking_ok p.1 p.2 = true := by
  unfold batch_verify_xfr_bodies
  cases hbr : batch_verify_xfr_body_asset_records bodies with
  | none =>
    simp only [Option.bind_eq_bind, Option.none_bind]
    refine iff_of_false (by intro hc; cases hc) (fun hr => ?_)
    have := (batch_records_ok_iff bodies).mpr hr.1
    rw [hbr] at this
    cases this
  | some res =>
    simp only [Option.bind_eq_bind, Option.some_bind]
    cases res with
    | error e =>
      refine iff_of_false (by intro hc; simp at hc) (fun hr => ?_)
      have := (batch_records_ok_iff bodies).mpr hr.1
      rw [hbr] at this
      simp at this
    | ok u =>
      cases u
      have hrec : ∀ b ∈ bodies,
          body_plain_check b = some (.ok ()) ∧ body_pool_ok b = true :=
        (batch_records_ok_iff bodies).mp hbr
      constructor
      · intro h
        simp only [Option.some_inj] at h
        rw [bvttp_ok_iff] at h
        exact ⟨hrec, h.1, h.2⟩
      · intro hr
        simp only [Option.some_inj]
        rw [bvttp_ok_iff]
        exact ⟨hr.2.1, hr.2.2⟩

theorem verify_xfr_body_ok_iff (b : XfrBody) (p : XfrNotePolicies) :
    verify_xfr_body b p = some (.ok ())
      ↔ body_plain_check b = some (.ok ()) ∧ body_pool_ok b = true
        ∧ tracer_tracking_ok b p = true := by
  unfold verify_xfr_body
  rw [batch_bodies_ok_iff]
  simp [List.zip_cons_cons]
  tauto

/-- C3: for bodies aligned with their policies, the batched verifier
succeeds iff each body verifies individually with its own policy set;
batching never yields partial success nor accepts a body that single
verification rejects. -/
theorem claim_C3 (bodies : List XfrBody) (policies : List XfrNotePolicies)
    (hlen : bodies.length = policies.length) :
    batch_verify_xfr_bodies bodies policies = some (.ok ())
      ↔ ∀ p ∈ bodies.zip policies, verify_xfr_body p.1 p.2 = some (.ok ()) := by
  rw [batch_bodies_ok_iff]
  constructor
  · rintro ⟨hrec, _, htr⟩ pr hpr
    obtain ⟨b, pol⟩ := pr
    rw [verify_xfr_body_ok_iff]
    have hmem := List.of_mem_zip hpr
    exact ⟨(hrec b hmem.1).1, (hrec b hmem.1).2, htr (b, pol) hpr⟩
  · intro h
    refine ⟨?_, hlen, fun pr hpr => ((verify_xfr_body_ok_iff pr.1 pr.2).mp (h pr hpr)).2.2⟩
    intro b hb
    have hmap : b ∈ (bodies.zip policies).map Prod.fst := by
      rw [List.map_fst_zip bodies policies (le_of_eq hlen)]
      exact hb
    obtain ⟨pr, hpr, hfst⟩ := List.mem_map.mp hmap
    have := (verify_xfr_body_ok_iff pr.1 pr.2).mp (h pr hpr)
    rw [hfst] at this
    exact ⟨this.1, this.2.1⟩

/-- Witness for C3 on a singleton batch containing a plain body. -/
theorem claim_C3_witness :
    [samplePlainBody].length = [XfrNotePolicies.default].length
    ∧ (batch_verify_xfr_bodies [samplePlainBody] [XfrNotePolicies.default]
          = some (.ok ())
        ↔ ∀ p ∈ [samplePlainBody].zip [XfrNotePolicies.default],
            verify_xfr_body p.1 p.2 = some (.ok ())) :=
  ⟨rfl, claim_C3 [samplePlainBody] [XfrNotePolicies.default] rfl⟩

/-! ## Honest-record lemmas -/

theorem honest_record_oar (r : AssetRecord) (h : honest_record r = true) :
    honest_oar r.open_asset_record = true := by
  rw [honest_record, Bool.and_eq_true, Bool.and_eq_true] at h
  exact h.1.1

theorem honest_record_memos (r : AssetRecord) (h : honest_record r = true) :
    r.asset_tracers_memos = [] := by
  rw [honest_record, Bool.and_eq_true, Bool.and_eq_true] at h
  exact List.isEmpty_iff.mp h.1.2

theorem honest_record_idproofs (r : AssetRecord) (h : honest_record r = true) :
    r.identity_proofs = [] := by
  rw [honest_record, Bool.and_eq_true, Bool.and_eq_true] at h
  exact List.isEmpty_iff.mp h.2

theorem honest_oar_amount_lt (oar : OpenAssetRecord) (h : honest_oar oar = true) :
    oar.amount < 2 ^ 64 := by
  rw [honest_oar, Bool.and_eq_true, Bool.and_eq_true] at h
  exact of_decide_eq_true h.1.1

theorem honest_bar_amount_plain (r : AssetRecord) (h : honest_record r = true)
    (hca : r.conf_amount = false) :
    r.open_asset_record.blind_asset_record.amount
      = .NonConfidential r.open_asset_record.amount := by
  have ho := honest_record_oar r h
  rw [honest_oar, Bool.and_eq_true, Bool.and_eq_true] at ho
  have h2 := ho.1.2
  cases hamt : r.open_asset_record.blind_asset_record.amount with
  | NonConfidential a =>
    rw [hamt] at h2
    simp only [Bool.and_eq_true, decide_eq_true_eq] at h2
    rw [h2.1]
  | Confidential c1 c2 =>
    rw [AssetRecord.conf_amount, hamt] at hca
    cases hca

theorem honest_bar_amount_conf (r : AssetRecord) (h : honest_record r = true)
    (hca : r.conf_amount = true) :
    r.open_asset_record.blind_asset_record.amount
      = .Confidential
          (commit (u64_to_u32_pair r.open_asset_record.amount).1
            r.open_asset_record.amount_blinds.1)
          (commit (u64_to_u32_pair r.open_asset_record.amount).2
            r.open_asset_record.amount_blinds.2) := by
  have ho := honest_record_oar r h
  rw [honest_oar, Bool.and_eq_true, Bool.and_eq_true] at ho
  have h2 := ho.1.2
  cases hamt : r.open_asset_record.blind_asset_record.amount with
  | NonConfidential a =>
    rw [AssetRecord.conf_amount, hamt] at hca
    cases hca
  | Confidential c1 c2 =>
    rw [hamt] at h2
    simp only [Bool.and_eq_true, decide_eq_true_eq] at h2
    rw [h2.1, h2.2]

theorem honest_amount_blinds_zero (r : AssetRecord) (h : honest_record r = true)
    (hca : r.conf_amount = false) :
    r.open_asset_record.amount_blinds = (0, 0) := by
  have ho := honest_record_oar r h
  rw [honest_oar, Bool.and_eq_true, Bool.and_eq_true] at ho
  have h2 := ho.1.2
  cases hamt : r.open_asset_record.blind_asset_record.amount with
  | NonConfidential a =>
    rw [hamt] at h2
    simp only [Bool.and_eq_true, decide_eq_true_eq] at h2
    exact h2.2
  | Confidential c1 c2 =>
    rw [AssetRecord.conf_amount, hamt] at hca
    cases hca

theorem honest_bar_type_plain (r : AssetRecord) (h : honest_record r = true)
    (hct : r.conf_asset_type = false) :
    r.open_asset_record.blind_asset_record.asset_type
      = .NonConfidential r.open_asset_record.asset_type := by
  have ho := honest_record_oar r h
  rw [honest_oar, Bool.and_eq_true, Bool.and_eq_true] at ho
  have h3 := ho.2
  cases hty : r.open_asset_record.blind_asset_record.asset_type with
  | NonConfidential t =>
    rw [hty] at h3
    simp only [Bool.and_eq_true, decide_eq_true_eq] at h3
    rw [h3.1]
  | Confidential c =>
    rw [AssetRecord.conf_asset_type, hty] at hct
    cases hct

theorem honest_type_blind_zero (r : AssetRecord) (h : honest_record r = true)
    (hct : r.conf_asset_type = false) :
    r.open_asset_record.type_blind = 0 := by
  have ho := honest_record_oar r h
  rw [honest_oar, Bool.and_eq_true, Bool.and_eq_true] at ho
  have h3 := ho.2
  cases hty : r.open_asset_record.blind_asset_record.asset_type with
  | NonConfidential t =>
    rw [hty] at h3
    simp only [Bool.and_eq_true, decide_eq_true_eq] at h3
    exact h3.2
  | Confidential c =>
    rw [AssetRecord.conf_asset_type, hty] at hct
    cases hct

theorem honest_bar_type_conf (r : AssetRecord) (h : honest_record r = true)
    (hct : r.conf_asset_type = true) :
    r.open_asset_record.blind_asset_record.asset_type
      = .Confidential (compress (commit
          (asset_type_to_scalar r.open_asset_record.asset_type)
          r.open_asset_record.type_blind)) := by
  have ho := honest_record_oar r h
  rw [honest_oar, Bool.and_eq_true, Bool.and_eq_true] at ho
  have h3 := ho.2
  cases hty : r.open_asset_record.blind_asset_record.asset_type with
  | NonConfidential t =>
    rw [AssetRecord.conf_asset_type, hty] at hct
    cases hct
  | Confidential c =>
    rw [hty] at h3
    simp only [decide_eq_true_eq] at h3
    rw [h3]

theorem pow_2_32_eq : POW_2_32 = 2 ^ 32 := by norm_num [POW_2_32]

theorem process_bar_honest (r : AssetRecord) (h : honest_record r = true) :
    process_bar r.open_asset_record.blind_asset_record
      = tuple_to_coms (mix_tuple r.open_asset_record) := by
  have hlt := honest_oar_amount_lt _ (honest_record_oar r h)
  have hrecomb := u64_pair_recombine r.open_asset_record.amount hlt
  unfold process_bar mix_tuple tuple_to_coms
  cases hca : r.conf_amount with
  | true =>
    rw [honest_bar_amount_conf r h hca]
    cases hct : r.conf_asset_type with
    | true =>
      rw [honest_bar_type_conf r h hct]
      simp only [decompress, commit, compress, gadd, gsmul, pow_2_32_eq]
      rw [hrecomb]
    | false =>
      rw [honest_bar_type_plain r h hct, honest_type_blind_zero r h hct]
      simp only [decompress, commit, compress, gadd, gsmul, pow_2_32_eq]
      rw [hrecomb]
  | false =>
    rw [honest_bar_amount_plain r h hca, honest_amount_blinds_zero r h hca]
    cases hct : r.conf_asset_type with
    | true =>
      rw [honest_bar_type_conf r h hct]
      simp only [decompress, commit, compress, gadd, gsmul, pow_2_32_eq,
        Nat.mul_zero, Nat.add_zero]
      rw [hrecomb]
    | false =>
      rw [honest_bar_type_plain r h hct, honest_type_blind_zero r h hct]
      simp only [decompress, commit, compress, gadd, gsmul, pow_2_32_eq,
        Nat.mul_zero, Nat.add_zero]
      rw [hrecomb]

theorem process_bars_honest (records : List AssetRecord)
    (h : ∀ r ∈ records, honest_record r = true) :
    process_bars (records.map (fun r => r.open_asset_record.blind_asset_record))
      = (records.map (fun r => mix_tuple r.open_asset_record)).map tuple_to_coms := by
  unfold process_bars
  rw [List.map_map, List.map_map]
  exact List.map_congr_left (fun r hr => process_bar_honest r (h r hr))

/-! ## Plain-path verification lemmas -/

theorem all_equal_of_const (l : List AssetType) (t0 : AssetType)
    (h : ∀ x ∈ l, x = t0) : all_equal_bool l = true := by
  cases l with
  | nil => rfl
  | cons t rest =>
    rw [all_equal_bool, List.all_eq_true]
    intro u hu
    rw [h u (List.mem_cons_of_mem t hu), h t (List.mem_cons_self t rest)]
    simp

theorem mapM_types_of_records (records : List AssetRecord)
    (hhon : ∀ r ∈ records, honest_record r = true)
    (hnoct : ∀ r ∈ records, r.conf_asset_type = false) :
    ((records.map (fun r => r.open_asset_record.blind_asset_record)).mapM
        (·.asset_type.get_asset_type))
      = some (records.map (fun r => r.open_asset_record.asset_type)) := by
  induction records with
  | nil => rfl
  | cons r rs ih =>
    rw [List.map_cons, List.mapM_cons,
      honest_bar_type_plain r (hhon r (List.mem_cons_self r rs))
        (hnoct r (List.mem_cons_self r rs)),
      ih (fun x hx => hhon x (List.mem_cons_of_mem r hx))
        (fun x hx => hnoct x (List.mem_cons_of_mem r hx))]
    rfl

theorem mapM_amounts_of_records (records : List AssetRecord)
    (hhon : ∀ r ∈ records, honest_record r = true)
    (hnoca : ∀ r ∈ records, r.conf_amount = false) :
    ((records.map (fun r => r.open_asset_record.blind_asset_record)).mapM
        (·.amount.get_amount))
      = some (records.map (fun r => r.open_asset_record.amount)) := by
  induction records with
  | nil => rfl
  | cons r rs ih =>
    rw [List.map_cons, List.mapM_cons,
      honest_bar_amount_plain r (hhon r (List.mem_cons_self r rs))
        (hnoca r (List.mem_cons_self r rs)),
      ih (fun x hx => hhon x (List.mem_cons_of_mem r hx))
        (fun x hx => hnoca x (List.mem_cons_of_mem r hx))]
    rfl

theorem bars_plain_u64 (records : List AssetRecord)
    (hhon : ∀ r ∈ records, honest_record r = true)
    (hnoca : ∀ r ∈ records, r.conf_amount = false) :
    ((records.map (fun r => r.open_asset_record.blind_asset_record)).all plain_u64)
      = true := by
  rw [List.all_eq_true]
  intro b hb
  obtain ⟨r, hr, rfl⟩ := List.mem_map.mp hb
  rw [plain_u64, honest_bar_amount_plain r (hhon r hr) (hnoca r hr)]
  exact decide_eq_true (honest_oar_amount_lt _ (honest_record_oar r (hhon r hr)))

theorem plain_amounts_records (records : List AssetRecord)
    (hhon : ∀ r ∈ records, honest_record r = true)
    (hnoca : ∀ r ∈ records, r.conf_amount = false) :
    plain_amounts (records.map (fun r => r.open_asset_record.blind_asset_record))
      = records.map (fun r => r.open_asset_record.amount) := by
  induction records with
  | nil => rfl
  | cons r rs ih =>
    rw [List.map_cons, plain_amounts, List.filterMap_cons]
    rw [honest_bar_amount_plain r (hhon r (List.mem_cons_self r rs))
      (hnoca r (List.mem_cons_self r rs))]
    rw [plain_amounts] at ih
    rw [ih (fun x hx => hhon x (List.mem_cons_of_mem r hx))
      (fun x hx => hnoca x (List.mem_cons_of_mem r hx))]
    rfl

theorem amount_sum_const_type (records : List AssetRecord) (t0 : AssetType)
    (hsame : ∀ r ∈ records, r.open_asset_record.asset_type = t0) :
    amount_sum t0 records = (records.map (fun r => r.open_asset_record.amount)).sum := by
  unfold amount_sum
  rw [List.filter_eq_self.mpr (fun r hr => decide_eq_true (hsame r hr))]

theorem verify_plain_amounts_eval (inputs outputs : List BlindAssetRecord)
    (hin : inputs.all plain_u64 = true) (hout : outputs.all plain_u64 = true)
    (hlin : inputs.length ≤ 2 ^ 64) (hlout : outputs.length ≤ 2 ^ 64) :
    verify_plain_amounts inputs outputs
      = if (plain_amounts inputs).sum < (plain_amounts outputs).sum
        then some (.error .XfrVerifyAssetAmountError) else some (.ok ()) := by
  have hlin' : (plain_amounts inputs).length ≤ 2 ^ 64 :=
    le_trans (List.length_filterMap_le _ _) hlin
  have hlout' : (plain_amounts outputs).length ≤ 2 ^ 64 :=
    le_trans (List.length_filterMap_le _ _) hlout
  unfold verify_plain_amounts
  rw [mapM_amounts_of_plain inputs hin, mapM_amounts_of_plain outputs hout]
  simp only [Option.bind_eq_bind, Option.some_bind]
  rw [safe_sum_u64_exact _ (plain_amounts_lt inputs hin) hlin',
    safe_sum_u64_exact _ (plain_amounts_lt outputs hout) hlout']

theorem verify_plain_asset_honest_ok (inputs outputs : List AssetRecord) (t0 : AssetType)
    (hhon : ∀ r ∈ inputs ++ outputs, honest_record r = true)
    (hnoct : ∀ r ∈ inputs ++ outputs, r.conf_asset_type = false)
    (hsame : ∀ r ∈ inputs ++ outputs, r.open_asset_record.asset_type = t0) :
    verify_plain_asset (inputs.map (fun r => r.open_asset_record.blind_asset_record))
        (outputs.map (fun r => r.open_asset_record.blind_asset_record))
      = some (.ok ()) := by
  unfold verify_plain_asset
  rw [← List.map_append, mapM_types_of_records (inputs ++ outputs) hhon hnoct]
  simp only [Option.bind_eq_bind, Option.some_bind]
  rw [if_pos]
  exact all_equal_of_const _ t0 (by
    intro x hx
    obtain ⟨r, hr, rfl⟩ := List.mem_map.mp hx
    exact hsame r hr)

theorem verify_plain_amounts_honest_ok (inputs outputs : List AssetRecord) (t0 : AssetType)
    (hhon : ∀ r ∈ inputs ++ outputs, honest_record r = true)
    (hnoca : ∀ r ∈ inputs ++ outputs, r.conf_amount = false)
    (hsame : ∀ r ∈ inputs ++ outputs, r.open_asset_record.asset_type = t0)
    (hbal : ∀ t, amount_sum t outputs ≤ amount_sum t inputs)
    (hsize : inputs.length + outputs.length ≤ 2 ^ 64) :
    verify_plain_amounts (inputs.map (fun r => r.open_asset_record.blind_asset_record))
        (outputs.map (fun r => r.open_asset_record.blind_asset_record))
      = some (.ok ()) := by
  have hhin : ∀ r ∈ inputs, honest_record r = true :=
    fun r hr => hhon r (List.mem_append_left _ hr)
  have hhout : ∀ r ∈ outputs, honest_record r = true :=
    fun r hr => hhon r (List.mem_append_right _ hr)
  have hcain : ∀ r ∈ inputs, r.conf_amount = false :=
    fun r hr => hnoca r (List.mem_append_left _ hr)
  have hcaout : ∀ r ∈ outputs, r.conf_amount = false :=
    fun r hr => hnoca r (List.mem_append_right _ hr)
  rw [verify_plain_amounts_eval _ _
    (bars_plain_u64 inputs hhin hcain) (bars_plain_u64 outputs hhout hcaout)
    (by rw [List.length_map]; omega) (by rw [List.length_map]; omega)]
  rw [if_neg]
  rw [plain_amounts_records inputs hhin hcain, plain_amounts_records outputs hhout hcaout]
  rw [← amount_sum_const_type inputs t0 (fun r hr => hsame r (List.mem_append_left _ hr)),
    ← amount_sum_const_type outputs t0 (fun r hr => hsame r (List.mem_append_right _ hr))]
  exact not_lt.mpr (hbal t0)

theorem bar_pos_entry_plain (r : AssetRecord) (h : honest_record r = true)
    (hca : r.conf_amount = false) (hct : r.conf_asset_type = false) :
    bar_pos_entry r.open_asset_record.blind_asset_record
      = some (r.open_asset_record.asset_type, (r.open_asset_record.amount : Int)) := by
  unfold bar_pos_entry
  rw [honest_bar_type_plain r h hct, honest_bar_amount_plain r h hca]
  rfl

theorem bar_neg_entry_plain (r : AssetRecord) (h : honest_record r = true)
    (hca : r.conf_amount = false) (hct : r.conf_asset_type = false) :
    bar_neg_entry r.open_asset_record.blind_asset_record
      = some (r.open_asset_record.asset_type, -(r.open_asset_record.amount : Int)) := by
  unfold bar_neg_entry
  rw [honest_bar_type_plain r h hct, honest_bar_amount_plain r h hca]
  rfl

theorem mapM_mix_pos (records : List AssetRecord)
    (hhon : ∀ r ∈ records, honest_record r = true)
    (hnoca : ∀ r ∈ records, r.conf_amount = false)
    (hnoct : ∀ r ∈ records, r.conf_asset_type = false) :
    ((records.map (fun r => r.open_asset_record.blind_asset_record)).mapM
        bar_pos_entry)
      = some (records.map (fun r =>
          ((r.open_asset_record.asset_type, (r.open_asset_record.amount : Int))
            : AssetType × Int))) := by
  induction records with
  | nil => rfl
  | cons r rs ih =>
    rw [List.map_cons, List.mapM_cons,
      bar_pos_entry_plain r (hhon r (List.mem_cons_self r rs))
        (hnoca r (List.mem_cons_self r rs)) (hnoct r (List.mem_cons_self r rs)),
      ih (fun x hx => hhon x (List.mem_cons_of_mem r hx))
        (fun x hx => hnoca x (List.mem_cons_of_mem r hx))
        (fun x hx => hnoct x (List.mem_cons_of_mem r hx))]
    rfl

theorem mapM_mix_neg (records : List AssetRecord)
    (hhon : ∀ r ∈ records, honest_record r = true)
    (hnoca : ∀ r ∈ records, r.conf_amount = false)
    (hnoct : ∀ r ∈ records, r.conf_asset_type = false) :
    ((records.map (fun r => r.open_asset_record.blind_asset_record)).mapM
        bar_neg_entry)
      = some (records.map (fun r =>
          ((r.open_asset_record.asset_type, -(r.open_asset_record.amount : Int))
            : AssetType × Int))) := by
  induction records with
  | nil => rfl
  | cons r rs ih =>
    rw [List.map_cons, List.mapM_cons,
      bar_neg_entry_plain r (hhon r (List.mem_cons_self r rs))
        (hnoca r (List.mem_cons_self r rs)) (hnoct r (List.mem_cons_self r rs)),
      ih (fun x hx => hhon x (List.mem_cons_of_mem r hx))
        (fun x hx => hnoca x (List.mem_cons_of_mem r hx))
        (fun x hx => hnoct x (List.mem_cons_of_mem r hx))]
    rfl

theorem verify_plain_asset_mix_honest_ok (inputs outputs : List AssetRecord)
    (hhon : ∀ r ∈ inputs ++ outputs, honest_record r = true)
    (hnoca : ∀ r ∈ inputs ++ outputs, r.conf_amount = false)
    (hnoct : ∀ r ∈ inputs ++ outputs, r.conf_asset_type = false)
    (hbal : ∀ t, amount_sum t outputs ≤ amount_sum t inputs) :
    verify_plain_asset_mix (inputs.map (fun r => r.open_asset_record.blind_asset_record))
        (outputs.map (fun r => r.open_asset_record.blind_asset_record))
      = some (.ok ()) := by
  unfold verify_plain_asset_mix
  rw [mapM_mix_pos inputs
      (fun r hr => hhon r (List.mem_append_left _ hr))
      (fun r hr => hnoca r (List.mem_append_left _ hr))
      (fun r hr => hnoct r (List.mem_append_left _ hr)),
    mapM_mix_neg outputs
      (fun r hr => hhon r (List.mem_append_right _ hr))
      (fun r hr => hnoca r (List.mem_append_right _ hr))
      (fun r hr => hnoct r (List.mem_append_right _ hr))]
  simp only [Option.bind_eq_bind, Option.some_bind]
  rw [if_pos]
  exact (signed_groups_all_nonneg_iff (creation_entries inputs outputs)).mpr (by
    intro t
    rw [entries_sum_creation]
    have := hbal t
    omega)

/-! ## Flag-extraction lemmas -/

theorem no_conf_amount_of_flags (records : List AssetRecord)
    (h1 : spec_amt_only_conf records = false) (h2 : spec_all_conf records = false) :
    ∀ r ∈ records, r.conf_amount = false := by
  intro r hr
  rw [spec_amt_only_conf, List.any_eq_false] at h1
  rw [spec_all_conf, List.any_eq_false] at h2
  have e1 := h1 r hr
  have e2 := h2 r hr
  cases hca : r.conf_amount with
  | false => rfl
  | true =>
    cases hct : r.conf_asset_type with
    | true => rw [hca, hct] at e2; simp at e2
    | false => rw [hca, hct] at e1; simp at e1

theorem no_conf_type_of_flags (records : List AssetRecord)
    (h1 : spec_type_only_conf records = false) (h2 : spec_all_conf records = false) :
    ∀ r ∈ records, r.conf_asset_type = false := by
  intro r hr
  rw [spec_type_only_conf, List.any_eq_false] at h1
  rw [spec_all_conf, List.any_eq_false] at h2
  have e1 := h1 r hr
  have e2 := h2 r hr
  cases hct : r.conf_asset_type with
  | false => rfl
  | true =>
    cases hca : r.conf_amount with
    | true => rw [hca, hct] at e2; simp at e2
    | false => rw [hca, hct] at e1; simp at e1

theorem same_type_of_not_multi (t0 : AssetType) (records : List AssetRecord)
    (h : spec_multi_asset t0 records = false) :
    ∀ r ∈ records, r.open_asset_record.asset_type = t0 := by
  intro r hr
  rw [spec_multi_asset, List.any_eq_false] at h
  have h2 := h r hr
  simp only [decide_eq_true_eq] at h2
  push_neg at h2
  exact h2.symm

/-! ## Honest-generation lemmas -/

theorem tracer_ok_of_no_memos (inputs outputs : List AssetRecord)
    (P : AssetTypeAndAmountProof)
    (hmem : ∀ r ∈ inputs ++ outputs, r.asset_tracers_memos = []) :
    tracer_tracking_ok (gen_body_expected inputs outputs P)
      XfrNotePolicies.default = true := by
  unfold tracer_tracking_ok gen_body_expected XfrNotePolicies.default
  simp only [Bool.and_eq_true]
  refine ⟨⟨⟨?_, ?_⟩, by simp⟩, by simp⟩
  · rw [List.isEmpty_iff, List.flatMap_eq_nil_iff]
    intro ms hms
    obtain ⟨r, hr, rfl⟩ := List.mem_map.mp hms
    rw [hmem r hr]
    rfl
  · rw [List.all_eq_true]
    intro ms hms
    obtain ⟨r, hr, rfl⟩ := List.mem_map.mp hms
    rw [hmem r hr]
    rfl

theorem map_pub_keys (records : List AssetRecord) (keys : List XfrKeyPair)
    (hlen : records.length = keys.length)
    (hk : ∀ p ∈ records.zip keys,
      p.1.open_asset_record.blind_asset_record.public_key = p.2.pub_key) :
    ((records.map (fun r => r.open_asset_record.blind_asset_record)).map
        (fun b => b.public_key))
      = keys.map (fun k => k.pub_key) := by
  induction records generalizing keys with
  | nil =>
    cases keys with
    | nil => rfl
    | cons k ks => simp at hlen
  | cons r rs ih =>
    cases keys with
    | nil => simp at hlen
    | cons k ks =>
      simp only [List.map_cons]
      rw [hk (r, k) (by rw [List.zip_cons_cons]; exact List.mem_cons_self _ _)]
      rw [ih ks (by simpa using hlen)
        (fun p hp => hk p (by rw [List.zip_cons_cons]; exact List.mem_cons_of_mem _ hp))]

theorem except_bind_ok {A B : Type} (a : A) (f : A → Except ZeiError B) :
    (Except.ok a >>= f : Except ZeiError B) = f a := rfl

theorem of_flags_multi_any (a b c : Bool) (h : (c || a || b) = true) :
    XfrType.of_flags ⟨true, a, b, c⟩ = .Confidential_MultiAsset := by
  cases a <;> cases b <;> cases c <;> simp_all [XfrType.of_flags]

theorem gen_body_verifies (r0 : AssetRecord) (rest outputs : List AssetRecord)
    (hwf : ∀ r ∈ (r0 :: rest) ++ outputs, honest_record r = true)
    (hbal : ∀ t, amount_sum t outputs ≤ amount_sum t (r0 :: rest))
    (hsize : (r0 :: rest).length + outputs.length ≤ 2 ^ 64) :
    ∃ B, gen_xfr_body (r0 :: rest) outputs = .ok B
      ∧ B.inputs = (r0 :: rest).map (fun r => r.open_asset_record.blind_asset_record)
      ∧ body_plain_check B = some (.ok ())
      ∧ body_pool_ok B = true
      ∧ tracer_tracking_ok B XfrNotePolicies.default = true := by
  have hca : check_asset_amount (r0 :: rest) outputs = .ok () :=
    (check_asset_amount_ok_iff _ _).mpr (fun t => by exact_mod_cast hbal t)
  have hmem : ∀ r ∈ (r0 :: rest) ++ outputs, r.asset_tracers_memos = [] :=
    fun r hr => honest_record_memos r (hwf r hr)
  have hhin : ∀ r ∈ r0 :: rest, honest_record r = true :=
    fun r hr => hwf r (List.mem_append_left _ hr)
  have hhout : ∀ r ∈ outputs, honest_record r = true :=
    fun r hr => hwf r (List.mem_append_right _ hr)
  cases hM : spec_multi_asset r0.open_asset_record.asset_type ((r0 :: rest) ++ outputs) with
  | true =>
    cases hany : (spec_all_conf ((r0 :: rest) ++ outputs)
        || spec_amt_only_conf ((r0 :: rest) ++ outputs)
        || spec_type_only_conf ((r0 :: rest) ++ outputs)) with
    | true =>
      have hxt : XfrType.of_flags (((r0 :: rest) ++ outputs).foldl
          (classify_step r0.open_asset_record.asset_type) ⟨false, false, false, false⟩)
          = .Confidential_MultiAsset := by
        rw [classify_foldl]
        simp only [Bool.false_or]
        rw [hM]
        exact of_flags_multi_any _ _ _ hany
      have hgen : gen_xfr_body (r0 :: rest) outputs
          = .ok (gen_body_expected (r0 :: rest) outputs
              (.AssetMix ⟨(r0 :: rest).map (fun r => mix_tuple r.open_asset_record),
                outputs.map (fun r => mix_tuple r.open_asset_record)⟩)) := by
        rw [gen_xfr_body, hca, hxt]
        simp [gen_body_expected, gen_xfr_proofs_multi_asset, prove_asset_mixing,
          asset_amount_tracking_proofs, List.map_map, Function.comp_def, except_bind_ok]
      refine ⟨_, hgen, rfl, rfl, ?_, tracer_ok_of_no_memos _ _ _ hmem⟩
      simp only [body_pool_ok, camt_entries, casset_entries, mix_entries,
        gen_body_expected, List.all_nil, List.all_cons, Bool.true_and, Bool.and_true]
      rw [process_bars_honest (r0 :: rest) hhin, process_bars_honest outputs hhout]
      simp
    | false =>
      rw [Bool.or_eq_false_iff, Bool.or_eq_false_iff] at hany
      obtain ⟨⟨hCALL, hCA⟩, hCT⟩ := hany
      have hplainA := no_conf_amount_of_flags ((r0 :: rest) ++ outputs) hCA hCALL
      have hplainT := no_conf_type_of_flags ((r0 :: rest) ++ outputs) hCT hCALL
      have hxt : XfrType.of_flags (((r0 :: rest) ++ outputs).foldl
          (classify_step r0.open_asset_record.asset_type) ⟨false, false, false, false⟩)
          = .NonConfidential_MultiAsset := by
        rw [classify_foldl]
        simp only [Bool.false_or]
        rw [hM, hCA, hCT, hCALL]
        rfl
      have hgen : gen_xfr_body (r0 :: rest) outputs
          = .ok (gen_body_expected (r0 :: rest) outputs .NoProof) := by
        rw [gen_xfr_body, hca, hxt]
        simp [gen_body_expected, gen_xfr_proofs_multi_asset,
          asset_amount_tracking_proofs, List.map_map, Function.comp_def, except_bind_ok]
      refine ⟨_, hgen, rfl, ?_, ?_, tracer_ok_of_no_memos _ _ _ hmem⟩
      · exact verify_plain_asset_mix_honest_ok (r0 :: rest) outputs hwf hplainA hplainT hbal
      · simp [body_pool_ok, camt_entries, casset_entries, mix_entries, gen_body_expected]
  | false =>
    have hsame := same_type_of_not_multi r0.open_asset_record.asset_type
      ((r0 :: rest) ++ outputs) hM
    cases hCALL : spec_all_conf ((r0 :: rest) ++ outputs) with
    | true =>
      have hxt : XfrType.of_flags (((r0 :: rest) ++ outputs).foldl
          (classify_step r0.open_asset_record.asset_type) ⟨false, false, false, false⟩)
          = .Confidential_SingleAsset := by
        rw [classify_foldl]
        simp only [Bool.false_or]
        rw [hM, hCALL]
        cases spec_amt_only_conf ((r0 :: rest) ++ outputs) <;>
          cases spec_type_only_conf ((r0 :: rest) ++ outputs) <;> rfl
      have hgen : gen_xfr_body (r0 :: rest) outputs
          = .ok (gen_body_expected (r0 :: rest) outputs
              (.ConfAll
                ⟨(r0 :: rest).map (fun r => r.open_asset_record.blind_asset_record),
                 outputs.map (fun r => r.open_asset_record.blind_asset_record)⟩
                ⟨(r0 :: rest).map (fun r => r.open_asset_record.blind_asset_record),
                 outputs.map (fun r => r.open_asset_record.blind_asset_record)⟩)) := by
        rw [gen_xfr_body, hca, hxt]
        simp [gen_body_expected, gen_xfr_proofs_single_asset, range_proof, asset_proof,
          asset_amount_tracking_proofs, List.map_map, Function.comp_def, except_bind_ok]
      refine ⟨_, hgen, rfl, rfl, ?_, tracer_ok_of_no_memos _ _ _ hmem⟩
      simp [body_pool_ok, camt_entries, casset_entries, mix_entries, gen_body_expected]
    | false =>
      cases hCA : spec_amt_only_conf ((r0 :: rest) ++ outputs) with
      | true =>
        cases hCT : spec_type_only_conf ((r0 :: rest) ++ outputs) with
        | true =>
          have hxt : XfrType.of_flags (((r0 :: rest) ++ outputs).foldl
              (classify_step r0.open_asset_record.asset_type) ⟨false, false, false, false⟩)
              = .Confidential_SingleAsset := by
            rw [classify_foldl]
            simp only [Bool.false_or]
            rw [hM, hCALL, hCA, hCT]
            rfl
          have hgen : gen_xfr_body (r0 :: rest) outputs
              = .ok (gen_body_expected (r0 :: rest) outputs
                  (.ConfAll
                    ⟨(r0 :: rest).map (fun r => r.open_asset_record.blind_asset_record),
                     outputs.map (fun r => r.open_asset_record.blind_asset_record)⟩
                    ⟨(r0 :: rest).map (fun r => r.open_asset_record.blind_asset_record),
                     outputs.map (fun r => r.open_asset_record.blind_asset_record)⟩)) := by
            rw [gen_xfr_body, hca, hxt]
            simp [gen_body_expected, gen_xfr_proofs_single_asset, range_proof, asset_proof,
              asset_amount_tracking_proofs, List.map_map, Function.comp_def, except_bind_ok]
          refine ⟨_, hgen, rfl, rfl, ?_, tracer_ok_of_no_memos _ _ _ hmem⟩
          simp [body_pool_ok, camt_entries, casset_entries, mix_entries, gen_body_expected]
        | false =>
          have hplainT := no_conf_type_of_flags ((r0 :: rest) ++ outputs) hCT hCALL
          have hxt : XfrType.of_flags (((r0 :: rest) ++ outputs).foldl
              (classify_step r0.open_asset_record.asset_type) ⟨false, false, false, false⟩)
              = .ConfidentialAmount_NonConfidentialAssetType_SingleAsset := by
            rw [classify_foldl]
            simp only [Bool.false_or]
            rw [hM, hCALL, hCA, hCT]
            rfl
          have hgen : gen_xfr_body (r0 :: rest) outputs
              = .ok (gen_body_expected (r0 :: rest) outputs
                  (.ConfAmount
                    ⟨(r0 :: rest).map (fun r => r.open_asset_record.blind_asset_record),
                     outputs.map (fun r => r.open_asset_record.blind_asset_record)⟩)) := by
            rw [gen_xfr_body, hca, hxt]
            simp [gen_body_expected, gen_xfr_proofs_single_asset, range_proof,
              asset_amount_tracking_proofs, List.map_map, Function.comp_def, except_bind_ok]
          refine ⟨_, hgen, rfl, ?_, ?_, tracer_ok_of_no_memos _ _ _ hmem⟩
          · exact verify_plain_asset_honest_ok (r0 :: rest) outputs
              r0.open_asset_record.asset_type hwf hplainT hsame
          · simp [body_pool_ok, camt_entries, casset_entries, mix_entries, gen_body_expected]
      | false =>
        cases hCT : spec_type_only_conf ((r0 :: rest) ++ outputs) with
        | true =>
          have hplainA := no_conf_amount_of_flags ((r0 :: rest) ++ outputs) hCA hCALL
          have hxt : XfrType.of_flags (((r0 :: rest) ++ outputs).foldl
              (classify_step r0.open_asset_record.asset_type) ⟨false, false, false, false⟩)
              = .NonConfidentialAmount_ConfidentialAssetType_SingleAsset := by
            rw [classify_foldl]
            simp only [Bool.false_or]
            rw [hM, hCALL, hCA, hCT]
            rfl
          have hgen : gen_xfr_body (r0 :: rest) outputs
              = .ok (gen_body_expected (r0 :: rest) outputs
                  (.ConfAsset
                    ⟨(r0 :: rest).map (fun r => r.open_asset_record.blind_asset_record),
                     outputs.map (fun r => r.open_asset_record.blind_asset_record)⟩)) := by
            rw [gen_xfr_body, hca, hxt]
            simp [gen_body_expected, gen_xfr_proofs_single_asset, asset_proof,
              asset_amount_tracking_proofs, List.map_map, Function.comp_def, except_bind_ok]
          refine ⟨_, hgen, rfl, ?_, ?_, tracer_ok_of_no_memos _ _ _ hmem⟩
          · exact verify_plain_amounts_honest_ok (r0 :: rest) outputs
              r0.open_asset_record.asset_type hwf hplainA hsame hbal hsize
          · simp [body_pool_ok, camt_entries, casset_entries, mix_entries, gen_body_expected]
        | false =>
          have hplainA := no_conf_amount_of_flags ((r0 :: rest) ++ outputs) hCA hCALL
          have hplainT := no_conf_type_of_flags ((r0 :: rest) ++ outputs) hCT hCALL
          have hxt : XfrType.of_flags (((r0 :: rest) ++ outputs).foldl
              (classify_step r0.open_asset_record.asset_type) ⟨false, false, false, false⟩)
              = .NonConfidential_SingleAsset := by
            rw [classify_foldl]
            simp only [Bool.false_or]
            rw [hM, hCALL, hCA, hCT]
            rfl
          have hgen : gen_xfr_body (r0 :: rest) outputs
              = .ok (gen_body_expected (r0 :: rest) outputs .NoProof) := by
            rw [gen_xfr_body, hca, hxt]
            simp [gen_body_expected, gen_xfr_proofs_single_asset,
              asset_amount_tracking_proofs, List.map_map, Function.comp_def, except_bind_ok]
          refine ⟨_, hgen, rfl, ?_, ?_, tracer_ok_of_no_memos _ _ _ hmem⟩
          · exact verify_plain_asset_mix_honest_ok (r0 :: rest) outputs hwf hplainA hplainT hbal
          · simp [body_pool_ok, camt_entries, casset_entries, mix_entries, gen_body_expected]

/-- C1: for every confidentiality configuration (hence every `XfrType`
variant), a note produced by `gen_xfr_note` from honest open asset records
whose per-asset-type input sums cover the output sums, with matching input
key pairs, is accepted by `verify_xfr_note`. -/
theorem claim_C1 (r0 : AssetRecord) (rest outputs : List AssetRecord)
    (keys : List XfrKeyPair)
    (hwf : ∀ r ∈ (r0 :: rest) ++ outputs, honest_record r = true)
    (hklen : (r0 :: rest).length = keys.length)
    (hkeys : ∀ p ∈ (r0 :: rest).zip keys,
      p.1.open_asset_record.blind_asset_record.public_key = p.2.pub_key)
    (hbal : ∀ t, amount_sum t outputs ≤ amount_sum t (r0 :: rest))
    (hsize : (r0 :: rest).length + outputs.length ≤ 2 ^ 64) :
    ∃ note, gen_xfr_note (r0 :: rest) outputs keys = .ok note
      ∧ verify_xfr_note note XfrNotePolicies.default = some (.ok ()) := by
  obtain ⟨B, hgen, hBin, hpc, hpo, htr⟩ := gen_body_verifies r0 rest outputs hwf hbal hsize
  have hck : check_keys (r0 :: rest) keys = .ok () := by
    unfold check_keys
    rw [if_neg (fun hne => hne hklen), if_pos]
    rw [List.all_eq_true]
    intro p hp
    exact beq_iff_eq.mpr (hkeys p hp)
  have hnote : gen_xfr_note (r0 :: rest) outputs keys
      = .ok ⟨B, ⟨keys.map (fun k => k.pub_key), B⟩⟩ := by
    rw [gen_xfr_note, if_neg (by simp), hck]
    simp only [except_bind_ok]
    rw [hgen]
    simp only [except_bind_ok]
    rfl
  refine ⟨_, hnote, ?_⟩
  have hpk : B.inputs.map (fun b => b.public_key) = keys.map (fun k => k.pub_key) := by
    rw [hBin]
    exact map_pub_keys (r0 :: rest) keys hklen hkeys
  rw [verify_xfr_note, batch_verify_xfr_notes]
  have hms : verify_all_multisigs [⟨B, ⟨keys.map (fun k => k.pub_key), B⟩⟩]
      = .ok () := by
    rw [verify_all_multisigs]
    unfold verify_transfer_multisig verify_multisig
    rw [if_pos]
    · rfl
    · exact ⟨hpk.symm, rfl⟩
  rw [hms]
  show batch_verify_xfr_bodies [B] [XfrNotePolicies.default] = some (.ok ())
  have hv := (verify_xfr_body_ok_iff B XfrNotePolicies.default).mpr ⟨hpc, hpo, htr⟩
  rw [verify_xfr_body] at hv
  exact hv

/-- Witness for C1: one plain input of 10 `A`, one plain output of 10 `A`,
one matching key pair. -/
theorem claim_C1_witness :
    (∀ r ∈ [mkRecord (plainOAR 10 typeA 1)] ++ [mkRecord (plainOAR 10 typeA 2)],
        honest_record r = true)
    ∧ [mkRecord (plainOAR 10 typeA 1)].length = [(⟨1⟩ : XfrKeyPair)].length
    ∧ (∀ p ∈ [mkRecord (plainOAR 10 typeA 1)].zip [(⟨1⟩ : XfrKeyPair)],
        p.1.open_asset_record.blind_asset_record.public_key = p.2.pub_key)
    ∧ (∀ t, amount_sum t [mkRecord (plainOAR 10 typeA 2)]
        ≤ amount_sum t [mkRecord (plainOAR 10 typeA 1)])
    ∧ [mkRecord (plainOAR 10 typeA 1)].length
        + [mkRecord (plainOAR 10 typeA 2)].length ≤ 2 ^ 64
    ∧ ∃ note,
        gen_xfr_note [mkRecord (plainOAR 10 typeA 1)] [mkRecord (plainOAR 10 typeA 2)]
            [(⟨1⟩ : XfrKeyPair)] = .ok note
        ∧ verify_xfr_note note XfrNotePolicies.default = some (.ok ()) := by
  have hbal : ∀ t, amount_sum t [mkRecord (plainOAR 10 typeA 2)]
      ≤ amount_sum t [mkRecord (plainOAR 10 typeA 1)] := by
    intro t
    by_cases h : typeA = t <;> simp [amount_sum, mkRecord, plainOAR, h]
  exact ⟨by decide, rfl, by decide, hbal, by decide,
    claim_C1 (mkRecord (plainOAR 10 typeA 1)) [] [mkRecord (plainOAR 10 typeA 2)]
      [(⟨1⟩ : XfrKeyPair)] (by decide) rfl (by decide) hbal (by decide)⟩

end Zei
